import Mathlib

/-!
Flutter build step (`main.go`): a shallow embedding and its verified properties.

The program reads its configuration, resolves the per-OS install directory of the
Flutter SDK, installs the SDK when the directory is absent (download + extraction)
and then runs the configured Flutter commands through `bash`, stopping at the first
failure.

Modelling conventions.

* Go strings are Lean `String`s. The only byte-level operations the program relies on
  (splitting at `-`, path cleaning at `/` and `.`, concatenation) act on ASCII bytes,
  which never occur inside a multi-byte UTF-8 sequence, so working on characters
  agrees with working on bytes. The library algorithms are written over `List Char`
  and wrapped at the `String` level.
* A Go `error` is its message: `none` is `nil`, `some msg` is a non-nil error.
* Everything the program asks of the outside world (host OS, environment, file
  system probes, network, sub-processes) is answered by an explicit `Env`; every
  effect the program performs is appended to an explicit trace of `Event`s, and the
  temporary files are an explicit state component.
* `os.Exit n` ends the run with exit code `n`; falling off the end of `main` is exit
  code `0`.
-/

/-! ## Go standard library: `strings.Split` -/

namespace strings

/-- Go `strings.Index(s, sep)`: the position of the first occurrence of `sep` in `s`,
`none` (Go: `-1`) when there is none. -/
def Index : List Char → List Char → Option Nat
  | [], sep => if sep = [] then some 0 else none
  | c :: cs, sep =>
    if sep.isPrefixOf (c :: cs) then some 0
    else (Index cs sep).map (· + 1)

/-- The counting loop of `strings.Count(s, sep)` for a non-empty `sep`:
`for { i := Index(s, sep); if i == -1 { return n }; n++; s = s[i+len(sep):] }`.
Every round removes at least one byte of `s`, so `s.length` rounds of fuel are
enough. -/
def countLoop : Nat → List Char → List Char → Nat
  | 0, _, _ => 0
  | fuel + 1, s, sep =>
    match Index s sep with
    | none => 0
    | some i => 1 + countLoop fuel (s.drop (i + sep.length)) sep

/-- Go `strings.Count(s, sep)`: number of non-overlapping instances of `sep` in `s`
(`len(s) + 1` for the empty separator). -/
def Count (s sep : List Char) : Nat :=
  if sep = [] then s.length + 1 else countLoop s.length s sep

/-- The loop of `genSplit`, with `n` the number of rounds left (`n - i` in Go):
`for i < n { m := Index(s, sep); if m < 0 { break }; a[i] = s[:m];
 s = s[m+len(sep):]; i++ }; a[i] = s; return a[:i+1]`. -/
def genSplitLoop : Nat → List Char → List Char → List (List Char)
  | 0, s, _ => [s]
  | n + 1, s, sep =>
    match Index s sep with
    | none => [s]
    | some m => s.take m :: genSplitLoop n (s.drop (m + sep.length)) sep

/-- Go `genSplit(s, sep, 0, -1)` on character lists: with an empty separator the
string is exploded into its characters, otherwise it is cut at the
`Count(s, sep)` non-overlapping occurrences of `sep`. -/
def genSplit (s sep : List Char) : List (List Char) :=
  if sep = [] then s.map (fun c => [c])
  else genSplitLoop (Count s sep + 1 - 1) s sep

/-- Go `strings.Split(s, sep)`. -/
def Split (s sep : String) : List String :=
  (genSplit s.data sep.data).map String.mk

end strings

/-! ## Go standard library: `fmt.Sprintf` for the `%s` verb -/

namespace fmt

/-- Rendering of operands left over after the format is exhausted:
`%!(EXTRA string=a, string=b)`. -/
def extraArgs : List String → List Char
  | [] => []
  | [a] => "string=".data ++ a.data
  | a :: as => "string=".data ++ a.data ++ ", ".data ++ extraArgs as

/-- The formatting loop of `fmt.Sprintf` for formats whose only verbs are `%s` and
`%%` and whose operands are strings (an `error` operand is rendered by `%s` as its
message): each `%s` is replaced by the next operand, a `%s` without operand by
`%!s(MISSING)`, other characters are copied. -/
def sprintfLoop : List Char → List String → List Char
  | [], [] => []
  | [], a :: as => "%!(EXTRA ".data ++ extraArgs (a :: as) ++ [')']
  | '%' :: 's' :: fs, a :: as => a.data ++ sprintfLoop fs as
  | '%' :: 's' :: fs, [] => "%!s(MISSING)".data ++ sprintfLoop fs []
  | '%' :: '%' :: fs, as => '%' :: sprintfLoop fs as
  | c :: fs, as => c :: sprintfLoop fs as

/-- Go `fmt.Sprintf(format, a...)` for `%s` formats over string operands. -/
def Sprintf (format : String) (a : List String) : String :=
  ⟨sprintfLoop format.data a⟩

end fmt

/-! ## Go standard library: `filepath.Clean` and `filepath.Join` (Unix) -/

namespace filepath

/-- The backtracking loop of `Clean` at a `..` element, on the write index:
`for out.w > dotdot && out.index(out.w) != '/' { out.w-- }`. -/
def backtrack (out : List Char) (dotdot : Nat) : Nat → Nat
  | 0 => 0
  | w + 1 =>
    if w + 1 > dotdot ∧ out[w + 1]? ≠ some '/' then backtrack out dotdot w
    else w + 1

/-- The main loop of `Clean` (`for r < n { switch ... }`). The unread input
`path[r:]` is the list `path`, the buffer `out` holds its first `out.w` bytes.
Every round consumes at least one byte of input; the result is `none` only when
the fuel runs out with input left, which `Clean` excludes by passing the length of
the input. -/
def cleanLoop (rooted : Bool) : Nat → List Char → List Char → Nat → Option (List Char)
  | _, [], out, _ => some out
  | 0, _ :: _, _, _ => none
  | fuel + 1, c :: t, out, dotdot =>
    if c = '/' then
      -- empty path element
      cleanLoop rooted fuel t out dotdot
    else if c = '.' ∧ (t = [] ∨ t.head? = some '/') then
      -- . element
      cleanLoop rooted fuel t out dotdot
    else if c = '.' ∧ t.head? = some '.' ∧ (t.tail = [] ∨ t.tail.head? = some '/') then
      -- .. element: remove to last /
      if out.length > dotdot then
        -- can backtrack
        cleanLoop rooted fuel t.tail
          (out.take (backtrack out dotdot (out.length - 1))) dotdot
      else if !rooted then
        -- cannot backtrack, but not rooted, so append .. element
        let out1 := if out.length > 0 then out ++ ['/'] else out
        let out2 := out1 ++ ['.', '.']
        cleanLoop rooted fuel t.tail out2 out2.length
      else
        cleanLoop rooted fuel t.tail out dotdot
    else
      -- real path element: add slash if needed, copy element
      let out1 :=
        if (rooted ∧ out.length ≠ 1) ∨ (!rooted ∧ out.length ≠ 0) then out ++ ['/']
        else out
      cleanLoop rooted fuel ((c :: t).dropWhile (· ≠ '/'))
        (out1 ++ (c :: t).takeWhile (· ≠ '/')) dotdot

/-- Go `filepath.Clean(path)` on character lists (Unix: no volume name, separator
`/`). -/
def cleanChars (path : List Char) : List Char :=
  if path = [] then ['.']
  else
    let rooted := path.head? = some '/'
    let start := if rooted then cleanLoop true path.length path.tail ['/'] 1
                 else cleanLoop false path.length path [] 0
    match start with
    | some out => if out.length = 0 then ['.'] else out
    | none => path

/-- Go `filepath.Clean(path)`. -/
def Clean (path : String) : String := ⟨cleanChars path.data⟩

/-- Go `strings.Join(elems, "/")`. -/
def joinSep : List String → String
  | [] => ""
  | [e] => e
  | e :: es => e ++ "/" ++ joinSep es

/-- Go `filepath.Join(elem...)`: drop leading empty elements, join the rest with `/`
and clean the result; the empty string when every element is empty. -/
def Join : List String → String
  | [] => ""
  | e :: es => if e ≠ "" then Clean (joinSep (e :: es)) else Join es

/-- An element of a cleaned path: non-empty, without separator, and neither `.`
nor `..`. -/
def IsElem (c : String) : Prop :=
  c ≠ "" ∧ '/' ∉ c.data ∧ c ≠ "." ∧ c ≠ ".."

instance (c : String) : Decidable (IsElem c) := by
  unfold IsElem
  exact inferInstance

/-- The string `/c1/c2/.../cn` (empty for no element). -/
def absTail : List String → String
  | [] => ""
  | c :: cs => "/" ++ c ++ absTail cs

/-- The cleaned absolute path with the given elements: `/` for no element,
`/c1/c2/.../cn` otherwise. -/
def absPath (cs : List String) : String :=
  if cs = [] then "/" else absTail cs


end filepath

/-! ## The program: data model -/

namespace Flutter

/-- The configuration read from the environment (`createConfigsModelFromEnvs`). -/
structure Configs where
  Version : String
  WorkingDir : String
  Commands : List String
  deriving DecidableEq

/-- Severity of a log line (`log.Infof`, `log.Warnf`, `log.Errorf`). -/
inductive Level where
  | info
  | warn
  | error
  deriving DecidableEq

/-- The observable effects of a run, in the order in which they happen. A log line
is recorded with its format and operands. -/
inductive Event where
  | log (level : Level) (format : String) (args : List String)
  | ensureAndroidSdkSetup
  | createConfigsModelFromEnvs
  | validate
  | dump
  | isDirExists (pth : String)
  | extractSdk (flutterVersion flutterSdkDestinationDir : String)
  | downloadAndUnZIP (url pth : String)
  | tempFile (dir pattern : String)
  | httpGet (url : String)
  | ioCopy (outFile : String)
  | bodyClose
  | tarXZOpen (source destination : String)
  | remove (name : String)
  | runCommandInDir (dir name : String) (args : List String)
  | goPanic (msg : String)
  deriving DecidableEq

/-- The outside world as seen by one run: the host, the environment-provided
configuration, and the outcome of every call that leaves the program. -/
structure Env where
  /-- Value of `runtime.GOOS`. -/
  GOOS : String
  /-- Value of `pathutil.UserHomeDir()`. -/
  UserHomeDir : String
  /-- Value of `os.TempDir()`. -/
  TempDir : String
  /-- Files of the temporary directory present when the run starts. Extraction
  writes below its target directory and is not modelled as touching them. -/
  files : List String
  /-- Outcome of `ensureAndroidSdkSetup()`. -/
  ensureAndroidSdkSetup : Option String
  /-- Result of `createConfigsModelFromEnvs()`. -/
  configs : Configs
  /-- Outcome of `configs.validate()`. -/
  validate : Configs → Option String
  /-- Outcome of `pathutil.IsDirExists(pth)`. -/
  IsDirExists : String → Except String Bool
  /-- Outcome of `ioutil.TempFile(dir, pattern)`: the name of the new file. -/
  TempFile : String → String → Except String String
  /-- Outcome of `http.Get(url)`: a transport error or the status code of the
  response. -/
  Get : String → Except String Nat
  /-- Outcome of `io.Copy(outFile, resp.Body)`. -/
  Copy : Option String
  /-- Outcome of `resp.Body.Close()`. -/
  BodyClose : Option String
  /-- Outcome of `archiver.TarXZ.Open(source, destination)`. -/
  TarXZOpen : String → String → Option String
  /-- Outcome of `command.DownloadAndUnZIP(url, pth)`. -/
  DownloadAndUnZIP : String → String → Option String
  /-- Outcome of the `k`-th call (counting from `0`) of
  `command.RunCommandInDir`. -/
  RunCommandInDir : Nat → Option String

/-- What a Go call yields: a returned value or a run-time panic. -/
inductive Returned (α : Type) where
  | value (a : α)
  | goPanic (msg : String)
  deriving DecidableEq

/-- Go slice indexing `a[i]`: `none` stands for the run-time panic
"index out of range". -/
def sliceIndex (a : List String) (i : Int) : Option String :=
  if 0 ≤ i ∧ i < (a.length : Int) then a[i.toNat]? else none

/-- Creation of a temporary file by `ioutil.TempFile(dir, pattern)`: the file is
opened with `O_EXCL`, so a successful call adds a file that did not exist. -/
def ioutilTempFile (env : Env) (files : List String) (dir pattern : String) :
    Except String String × List String :=
  match env.TempFile dir pattern with
  | .error err => (.error err, files)
  | .ok name =>
    if name ∈ files then (.error ("open " ++ name ++ ": file exists"), files)
    else (.ok name, name :: files)

/-- Removal of a file by `os.Remove(name)`: removing an existing file succeeds,
removing a missing one is an error. -/
def osRemove (files : List String) (name : String) : Option String × List String :=
  if name ∈ files then (none, files.filter (· ≠ name))
  else (some ("remove " ++ name ++ ": no such file or directory"), files)

/-! ## The program: `main.go` -/

/-- Source: `getArchiveExtension`. -/
def getArchiveExtension (env : Env) : String :=
  if env.GOOS = "linux" then "tar.xz" else "zip"

/-- Source: `getFlutterPlatform`. -/
def getFlutterPlatform (env : Env) : String :=
  if env.GOOS = "darwin" then "macos" else env.GOOS

/-- Source: `getSdkDestinationDir`, returning the pair `(path, error)`. -/
def getSdkDestinationDir (env : Env) : String × Option String :=
  if env.GOOS = "darwin" then
    (filepath.Join [env.UserHomeDir, "Library/flutter"], none)
  else if env.GOOS = "linux" then
    ("/opt/flutter", none)
  else
    ("", some (fmt.Sprintf "unsupported OS: %s" [env.GOOS]))

/-- Source: `downloadFile`, with `outFile` given by its name. Returns the error
and the effects performed; the deferred `resp.Body.Close()` runs on both exits
that follow a successful `http.Get`. -/
def downloadFile (env : Env) (downloadURL outFile : String) :
    Option String × List Event :=
  match env.Get downloadURL with
  | .error err =>
    (some (fmt.Sprintf "failed to download from %s, error: %s" [downloadURL, err]),
      [.httpGet downloadURL])
  | .ok _ =>
    let deferred :=
      Event.bodyClose ::
        (match env.BodyClose with
         | some _ => [Event.log .warn "Failed to close (%s) body" [downloadURL]]
         | none => [])
    match env.Copy with
    | some err =>
      (some (fmt.Sprintf "failed to save file %s, error: %s" [outFile, err]),
        [.httpGet downloadURL, .ioCopy outFile] ++ deferred)
    | none => (none, [.httpGet downloadURL, .ioCopy outFile] ++ deferred)

/-- The channel computed at the start of `extractSdk`:
`versionComponents := strings.Split(flutterVersion, "-")` followed by
`versionComponents[len(versionComponents)-1]`. -/
def channel (flutterVersion : String) : Option String :=
  let versionComponents := strings.Split flutterVersion "-"
  sliceIndex versionComponents ((versionComponents.length : Int) - 1)

/-- The download URL built in `extractSdk` from the channel. -/
def flutterSdkSourceURL (env : Env) (flutterVersion channel : String) : String :=
  fmt.Sprintf
    "https://storage.googleapis.com/flutter_infra/releases/%s/%s/flutter_%s_v%s.%s"
    [channel, getFlutterPlatform env, getFlutterPlatform env, flutterVersion,
      getArchiveExtension env]

/-- The extraction target computed in `extractSdk`. -/
def flutterSdkParentDir (flutterSdkDestinationDir : String) : String :=
  filepath.Join [flutterSdkDestinationDir, ".."]

/-- Source: `extractSdk`. Takes the temporary files present before the call and
returns the error (or panic), the temporary files present after the call and the
effects performed. The deferred `os.Remove(file.Name())` runs on every exit that
follows a successful `ioutil.TempFile`. -/
def extractSdk (env : Env) (flutterVersion flutterSdkDestinationDir : String)
    (files : List String) : Returned (Option String) × List String × List Event :=
  let t0 := [Event.log .info "Extracting Flutter SDK to %s" [flutterSdkDestinationDir]]
  match channel flutterVersion with
  | none => (.goPanic "runtime error: index out of range", files, t0)
  | some channel =>
    let url := flutterSdkSourceURL env flutterVersion channel
    let parentDir := flutterSdkParentDir flutterSdkDestinationDir
    if env.GOOS = "darwin" then
      (.value (env.DownloadAndUnZIP url parentDir), files,
        t0 ++ [.downloadAndUnZIP url parentDir])
    else if env.GOOS = "linux" then
      match ioutilTempFile env files env.TempDir "flutter" with
      | (.error err, files1) =>
        (.value (some err), files1, t0 ++ [.tempFile env.TempDir "flutter"])
      | (.ok file, files1) =>
        let dl := downloadFile env url file
        let body : Option String × List Event :=
          match dl.1 with
          | some err => (some err, dl.2)
          | none => (env.TarXZOpen file parentDir, dl.2 ++ [.tarXZOpen file parentDir])
        let rm := osRemove files1 file
        let deferred :=
          Event.remove file ::
            (match rm.1 with
             | some err => [Event.log .error "Failed to remove temporary file:" [err]]
             | none => [])
        (.value body.1, rm.2,
          t0 ++ [.tempFile env.TempDir "flutter"] ++ body.2 ++ deferred)
    else
      (.value (some (fmt.Sprintf "unsupported OS: %s" [env.GOOS])), files, t0)

/-- The shell command line built in the loop of `main` for one Flutter command. -/
def bashCommand (flutterSdkDir flutterCommand : String) : String :=
  let flutterExecutablePath := filepath.Join [flutterSdkDir, "bin/flutter"]
  fmt.Sprintf "%s %s" [flutterExecutablePath, flutterCommand]

/-- The loop `for _, flutterCommand := range configs.Commands` of `main`, from the
`k`-th call of `RunCommandInDir` on. Returns the exit code (`0` when the loop runs
to its end, `3` from `os.Exit(3)`) and the effects performed. -/
def runCommands (env : Env) (configs : Configs) (flutterSdkDir : String) :
    Nat → List String → Nat × List Event
  | _, [] => (0, [])
  | k, flutterCommand :: rest =>
    let t :=
      [Event.log .info "Executing Flutter command: %s" [flutterCommand],
       Event.runCommandInDir configs.WorkingDir "bash"
         ["-c", bashCommand flutterSdkDir flutterCommand]]
    match env.RunCommandInDir k with
    | some err =>
      (3, t ++ [.log .error "Flutter invocation failed, error: %s" [err]])
    | none =>
      let r := runCommands env configs flutterSdkDir (k + 1) rest
      (r.1, t ++ r.2)

/-- The result of a run of the program. -/
structure Run where
  exitCode : Nat
  files : List String
  trace : List Event
  deriving DecidableEq

/-- The install step of `main` (`if !flutterSdkExists { ... } else { ... }`):
the exit code when the run ends here, the temporary files and the effects. A panic
ends the process with exit code `2`, as the Go run-time does. -/
def installStep (env : Env) (configs : Configs) (flutterSdkDir : String)
    (flutterSdkExists : Bool) : Option Nat × List String × List Event :=
  if !flutterSdkExists then
    match extractSdk env configs.Version flutterSdkDir env.files with
    | (.goPanic msg, files, t) =>
      (some 2, files, Event.extractSdk configs.Version flutterSdkDir :: t ++ [.goPanic msg])
    | (.value (some err), files, t) =>
      (some 2, files, Event.extractSdk configs.Version flutterSdkDir :: t ++
        [.log .error "Could not extract Flutter SDK, error: %s" [err]])
    | (.value none, files, t) =>
      (none, files, Event.extractSdk configs.Version flutterSdkDir :: t)
  else
    (none, env.files,
      [.log .info "Flutter SDK folder already exists, skipping installation." []])

/-- Source: `main`. -/
def main (env : Env) : Run :=
  match env.ensureAndroidSdkSetup with
  | some err =>
    ⟨6, env.files,
      [.ensureAndroidSdkSetup, .log .error "Could not setup Android SDK, error: %s" [err]]⟩
  | none =>
    let configs := env.configs
    let t1 := [Event.ensureAndroidSdkSetup, .createConfigsModelFromEnvs, .validate]
    match env.validate configs with
    | some err =>
      ⟨4, env.files, t1 ++ [.log .error "Could not validate config, error: %s" [err]]⟩
    | none =>
      let t2 := t1 ++ [.dump]
      match getSdkDestinationDir env with
      | (_, some err) =>
        ⟨5, env.files, t2 ++ [.log .error "Could not validate config, error: %s" [err]]⟩
      | (flutterSdkDir, none) =>
        let t3 := t2 ++ [.isDirExists flutterSdkDir]
        match env.IsDirExists flutterSdkDir with
        | .error err =>
          ⟨1, env.files,
            t3 ++ [.log .error "Could not check if Flutter SDK is installed, error: %s" [err]]⟩
        | .ok flutterSdkExists =>
          match installStep env configs flutterSdkDir flutterSdkExists with
          | (some code, files, ti) => ⟨code, files, t3 ++ ti⟩
          | (none, files, ti) =>
            let r := runCommands env configs flutterSdkDir 0 configs.Commands
            ⟨r.1, files, t3 ++ ti ++ r.2⟩

/-! ## Observations on a trace -/

/-- The stage of `main` an effect belongs to: `1` Android SDK setup, `2` loading,
validating and dumping the configuration, `4` presence check, `5` installation,
`6` command execution. Resolving the destination directory (stage `3`) has no
effect of its own; log lines and panics carry stage `0`. -/
def Event.stage : Event → Nat
  | .log _ _ _ => 0
  | .goPanic _ => 0
  | .ensureAndroidSdkSetup => 1
  | .createConfigsModelFromEnvs => 2
  | .validate => 2
  | .dump => 2
  | .isDirExists _ => 4
  | .extractSdk _ _ => 5
  | .downloadAndUnZIP _ _ => 5
  | .tempFile _ _ => 5
  | .httpGet _ => 5
  | .ioCopy _ => 5
  | .bodyClose => 5
  | .tarXZOpen _ _ => 5
  | .remove _ => 5
  | .runCommandInDir _ _ _ => 6

/-- The latest stage of `main` that contributes an effect to a trace. -/
def maxStage : List Event → Nat
  | [] => 0
  | e :: t => max e.stage (maxStage t)

/-- Number of invocations of `extractSdk` in a trace. -/
def extractSdkCalls : List Event → Nat
  | [] => 0
  | .extractSdk _ _ :: t => extractSdkCalls t + 1
  | _ :: t => extractSdkCalls t

/-- The paths probed by the presence check, in order. -/
def presenceChecks : List Event → List String
  | [] => []
  | .isDirExists pth :: t => pth :: presenceChecks t
  | _ :: t => presenceChecks t

/-- The URLs requested from the network (by `http.Get` or by
`command.DownloadAndUnZIP`), in order. -/
def downloadURLs : List Event → List String
  | [] => []
  | .httpGet url :: t => url :: downloadURLs t
  | .downloadAndUnZIP url _ :: t => url :: downloadURLs t
  | _ :: t => downloadURLs t

/-- The directories handed to an extraction routine
(`command.DownloadAndUnZIP` or `archiver.TarXZ.Open`), in order. -/
def extractionTargets : List Event → List String
  | [] => []
  | .downloadAndUnZIP _ pth :: t => pth :: extractionTargets t
  | .tarXZOpen _ destination :: t => destination :: extractionTargets t
  | _ :: t => extractionTargets t

/-- The names passed to `os.Remove`, in order. -/
def removals : List Event → List String
  | [] => []
  | .remove name :: t => name :: removals t
  | _ :: t => removals t

/-- The sub-process invocations `(dir, name, args)` of a trace, in order. -/
def invocations : List Event → List (String × String × List String)
  | [] => []
  | .runCommandInDir dir name args :: t => (dir, name, args) :: invocations t
  | _ :: t => invocations t

/-- The commands announced by `Executing Flutter command: ...`, in order. -/
def announced : List Event → List String
  | [] => []
  | .log level format args :: t =>
    if level = .info ∧ format = "Executing Flutter command: %s" then args ++ announced t
    else announced t
  | _ :: t => announced t

/-- The invocation that `main` issues for one Flutter command, as stated by the
specification: `bash -c "<executable> <command>"` in the working directory. -/
def invocationFor (workingDir flutterSdkDir flutterCommand : String) :
    String × String × List String :=
  (workingDir, "bash",
    ["-c", filepath.Join [flutterSdkDir, "bin/flutter"] ++ " " ++ flutterCommand])

/-- The run gets as far as the command loop with install directory
`flutterSdkDir`: Android SDK setup and config validation succeed, the destination
directory resolves to `flutterSdkDir`, the presence check returns without error and
the install step does not end the run. -/
def ReachesCommands (env : Env) (flutterSdkDir : String) : Prop :=
  env.ensureAndroidSdkSetup = none ∧ env.validate env.configs = none ∧
    getSdkDestinationDir env = (flutterSdkDir, none) ∧
    ∃ flutterSdkExists, env.IsDirExists flutterSdkDir = .ok flutterSdkExists ∧
      (installStep env env.configs flutterSdkDir flutterSdkExists).1 = none

/-- The run gets as far as the install step with install directory
`flutterSdkDir` and presence `flutterSdkExists`. -/
def ReachesInstall (env : Env) (flutterSdkDir : String) (flutterSdkExists : Bool) : Prop :=
  env.ensureAndroidSdkSetup = none ∧ env.validate env.configs = none ∧
    getSdkDestinationDir env = (flutterSdkDir, none) ∧
    env.IsDirExists flutterSdkDir = .ok flutterSdkExists

/-! ## Sample environments -/

/-- A Linux host on which the install directory is absent, every external call
succeeds and three commands are configured. -/
def linuxEnv : Env where
  GOOS := "linux"
  UserHomeDir := "/home/ci"
  TempDir := "/tmp"
  files := []
  ensureAndroidSdkSetup := none
  configs := ⟨"1.7.8-beta", "/src/app", ["build apk", "test", "analyze"]⟩
  validate := fun _ => none
  IsDirExists := fun _ => .ok false
  TempFile := fun dir pattern => .ok (dir ++ "/" ++ pattern ++ "123456")
  Get := fun _ => .ok 200
  Copy := none
  BodyClose := none
  TarXZOpen := fun _ _ => none
  DownloadAndUnZIP := fun _ _ => none
  RunCommandInDir := fun _ => none

/-- A Windows host: an unsupported operating system. -/
def windowsEnv : Env :=
  { linuxEnv with GOOS := "windows" }

/-- A Windows host on which Android SDK setup fails. -/
def windowsSetupFailsEnv : Env :=
  { linuxEnv with GOOS := "windows", ensureAndroidSdkSetup := some "sdkmanager not found" }

/-- A macOS host on which the install directory is absent. -/
def darwinAbsentEnv : Env :=
  { linuxEnv with GOOS := "darwin", UserHomeDir := "/Users/ci" }

/-- A macOS host without a home directory (`HOME` unset). -/
def darwinNoHomeEnv : Env :=
  { linuxEnv with GOOS := "darwin", UserHomeDir := "" }

/-- The Linux host with the SDK installed and the second command failing. -/
def secondFailsEnv : Env :=
  { linuxEnv with
    IsDirExists := fun _ => .ok true
    RunCommandInDir := fun k => if k = 1 then some "exit status 1" else none }

/-- The Linux host with a server answering `404 Not Found`. -/
def notFoundEnv : Env :=
  { linuxEnv with
    Get := fun _ => .ok 404
    TarXZOpen := fun _ _ => some "xz: file format not recognized" }

/-- The Linux host without network. -/
def offlineEnv : Env :=
  { linuxEnv with Get := fun _ => .error "dial tcp: no such host" }

end Flutter

/-! ## The library models on concrete inputs -/

/-- The model of `strings.Split` agrees with Go on typical inputs. -/
theorem strings.Split_examples :
    strings.Split "1.7.8-beta" "-" = ["1.7.8", "beta"] ∧
      strings.Split "" "-" = [""] ∧
      strings.Split "a--b-" "-" = ["a", "", "b", ""] ∧
      strings.Split "abc" "" = ["a", "b", "c"] ∧
      strings.Split "a, b, c" ", " = ["a", "b", "c"] := by
  decide

/-- The model of `fmt.Sprintf` agrees with Go on typical inputs. -/
theorem fmt.Sprintf_examples :
    fmt.Sprintf "%s %s" ["/opt/flutter/bin/flutter", "build apk"] =
        "/opt/flutter/bin/flutter build apk" ∧
      fmt.Sprintf "unsupported OS: %s" ["windows"] = "unsupported OS: windows" ∧
      fmt.Sprintf "100%% of %s" ["it"] = "100% of it" ∧
      fmt.Sprintf "a%s" [] = "a%!s(MISSING)" ∧
      fmt.Sprintf "a" ["b", "c"] = "a%!(EXTRA string=b, string=c)" := by
  decide

/-- The model of `filepath.Clean` and `filepath.Join` agrees with Go on typical
inputs. -/
theorem filepath.Join_examples :
    filepath.Join ["/opt/flutter", ".."] = "/opt" ∧
      filepath.Join ["/opt/flutter", "bin/flutter"] = "/opt/flutter/bin/flutter" ∧
      filepath.Join ["/", ".."] = "/" ∧
      filepath.Join ["", ".."] = ".." ∧
      filepath.Join ["", ""] = "" ∧
      filepath.Join ["a", "", "b"] = "a/b" ∧
      filepath.Join ["a/b/../c/./d//", "..", ".."] = "a" ∧
      filepath.Join ["a", "..", "..", "x"] = "../x" ∧
      filepath.Clean "" = "." ∧
      filepath.Clean "a/.." = "." ∧
      filepath.Clean "/../a/..b/...//" = "/a/..b/..." ∧
      filepath.Clean "../../a/../.." = "../../.." := by
  decide

/-! ## Lemmas on `strings.Split` at a one-character separator -/

namespace strings

theorem Index_single (d : Char) (s : List Char) :
    (d ∉ s ∧ Index s [d] = none) ∨
      ∃ pre post, s = pre ++ d :: post ∧ d ∉ pre ∧ Index s [d] = some pre.length := by
  induction s with
  | nil => left; simp [Index]
  | cons c cs ih =>
    by_cases hc : d = c
    · right
      refine ⟨[], cs, by simp [hc], by simp, ?_⟩
      simp [Index, List.isPrefixOf, hc]
    · rcases ih with ⟨hn, hi⟩ | ⟨pre, post, hs, hp, hi⟩
      · left
        refine ⟨by simp [hc, hn], ?_⟩
        simp [Index, List.isPrefixOf, hc, hi]
      · right
        refine ⟨c :: pre, post, by simp [hs], by simp [hc, hp], ?_⟩
        simp [Index, List.isPrefixOf, hc, hi]

theorem countLoop_single (d : Char) :
    ∀ (fuel : Nat) (s : List Char), s.length ≤ fuel → countLoop fuel s [d] = s.count d := by
  intro fuel
  induction fuel with
  | zero =>
    intro s hs
    have : s = [] := List.length_eq_zero.mp (Nat.le_zero.mp hs)
    simp [countLoop, this]
  | succ f ih =>
    intro s hs
    rcases Index_single d s with ⟨hn, hi⟩ | ⟨pre, post, hsp, hp, hi⟩
    · simp [countLoop, hi, List.count_eq_zero_of_not_mem hn]
    · have hlen : post.length ≤ f := by
        have : s.length = pre.length + (post.length + 1) := by simp [hsp]
        omega
      have hdrop : List.drop (pre.length + 1) s = post := by
        rw [hsp, List.drop_append_eq_append_drop]
        simp
      simp only [countLoop, hi, List.length_singleton, hdrop, ih post hlen]
      rw [hsp]
      simp [List.count_eq_zero_of_not_mem hp]
      omega

theorem genSplitLoop_single (d : Char) :
    ∀ (n : Nat) (s : List Char), s.count d = n →
      ∃ init last, genSplitLoop n s [d] = init ++ [last] ∧ d ∉ last ∧
        ((d ∉ s ∧ last = s) ∨ ∃ p, s = p ++ d :: last) := by
  intro n
  induction n with
  | zero =>
    intro s hs
    exact ⟨[], s, by simp [genSplitLoop], List.count_eq_zero.mp hs,
      Or.inl ⟨List.count_eq_zero.mp hs, rfl⟩⟩
  | succ k ih =>
    intro s hs
    rcases Index_single d s with ⟨hn, _⟩ | ⟨pre, post, hsp, hp, hi⟩
    · rw [List.count_eq_zero_of_not_mem hn] at hs
      omega
    · have hdrop : List.drop (pre.length + 1) s = post := by
        rw [hsp, List.drop_append_eq_append_drop]
        simp
      have htake : List.take pre.length s = pre := by
        rw [hsp]; simp
      have hcount : post.count d = k := by
        rw [hsp] at hs
        simp [List.count_eq_zero_of_not_mem hp] at hs
        omega
      obtain ⟨init, last, hg, hl, hcase⟩ := ih post hcount
      refine ⟨pre :: init, last, ?_, hl, Or.inr ?_⟩
      · simp [genSplitLoop, hi, hdrop, htake, hg]
      · rcases hcase with ⟨_, hlast⟩ | ⟨p, hpost⟩
        · exact ⟨pre, by rw [hsp, hlast]⟩
        · exact ⟨pre ++ d :: p, by rw [hsp, hpost]; simp⟩

/-- Splitting at a one-character separator yields a non-empty list whose last
element is free of the separator and is the part of the input after the last
separator (the whole input when there is none). -/
theorem genSplit_single (d : Char) (s : List Char) :
    ∃ init last, genSplit s [d] = init ++ [last] ∧ d ∉ last ∧
      ((d ∉ s ∧ last = s) ∨ ∃ p, s = p ++ d :: last) := by
  have hc : Count s [d] = s.count d := by
    simp [Count, countLoop_single d s.length s (Nat.le_refl _)]
  simpa [genSplit, hc] using genSplitLoop_single d (s.count d) s rfl

end strings

namespace Flutter

theorem sliceIndex_last (l : List String) (x : String) :
    sliceIndex (l ++ [x]) (((l ++ [x]).length : Int) - 1) = some x := by
  have h1 : (((l ++ [x]).length : Int) - 1) = (l.length : Int) := by
    simp
  rw [h1]
  simp [sliceIndex]

/-- The channel is always defined and is the last `-`-separated token. -/
theorem channel_spec (v : String) :
    ∃ ch : String, channel v = some ch ∧ '-' ∉ ch.data ∧
      (('-' ∉ v.data ∧ ch = v) ∨ ∃ pre : String, v = pre ++ "-" ++ ch) := by
  obtain ⟨init, last, hg, hl, hcase⟩ := strings.genSplit_single '-' v.data
  refine ⟨⟨last⟩, ?_, hl, ?_⟩
  · have hs : strings.Split v "-" = init.map String.mk ++ [⟨last⟩] := by
      have : ("-" : String).data = ['-'] := rfl
      simp [strings.Split, this, hg]
    simp only [channel, hs]
    exact sliceIndex_last _ _
  · rcases hcase with ⟨hn, hlast⟩ | ⟨p, hp⟩
    · exact Or.inl ⟨hn, by rw [hlast]⟩
    · refine Or.inr ⟨⟨p⟩, ?_⟩
      apply String.ext
      simp [hp]

end Flutter

/-! ## Lemmas on `filepath.Clean` over cleaned absolute paths -/

namespace filepath

theorem IsElem.chars {c : String} (h : IsElem c) :
    c.data ≠ [] ∧ '/' ∉ c.data ∧ c.data ≠ ['.'] ∧ c.data ≠ ['.', '.'] := by
  obtain ⟨h1, h2, h3, h4⟩ := h
  refine ⟨?_, h2, ?_, ?_⟩
  · intro h; exact h1 (String.ext h)
  · intro h; exact h3 (String.ext h)
  · intro h; exact h4 (String.ext h)

theorem absTail_append (cs ds : List String) :
    absTail (cs ++ ds) = absTail cs ++ absTail ds := by
  induction cs with
  | nil => simp [absTail]
  | cons c cs ih => simp [absTail, ih, String.append_assoc]

theorem absTail_length (cs : List String) (h : ∀ x ∈ cs, IsElem x) :
    2 * cs.length ≤ (absTail cs).data.length := by
  induction cs with
  | nil => simp
  | cons c cs ih =>
    have hc := (h c (List.mem_cons_self _ _)).chars.1
    have hl : 0 < c.data.length := List.length_pos.mpr hc
    have := ih (fun x hx => h x (List.mem_cons_of_mem _ hx))
    simp [absTail] at *
    omega

theorem cleanLoop_slash (rooted : Bool) (fuel : Nat) (t out : List Char) (dd : Nat) :
    cleanLoop rooted (fuel + 1) ('/' :: t) out dd = cleanLoop rooted fuel t out dd := by
  simp [cleanLoop]

theorem takeWhile_elem (c tl : List Char) (h2 : '/' ∉ c)
    (htl : tl = [] ∨ tl.head? = some '/') :
    (c ++ tl).takeWhile (· ≠ '/') = c ∧ (c ++ tl).dropWhile (· ≠ '/') = tl := by
  induction c with
  | nil =>
    rcases htl with h | h
    · simp [h]
    · cases tl with
      | nil => simp
      | cons x xs =>
        simp at h
        simp [h]
  | cons a cr ih =>
    have ha : a ≠ '/' := fun h => h2 (by simp [h])
    have hcr : '/' ∉ cr := fun h => h2 (by simp [h])
    simpa [ha] using ih hcr

theorem cleanLoop_nil (rooted : Bool) (fuel : Nat) (out : List Char) (dd : Nat) :
    cleanLoop rooted fuel [] out dd = some out := by
  cases fuel <;> rfl

theorem cleanLoop_dotdot_end (fuel : Nat) (out : List Char) (dd : Nat)
    (h : out.length > dd) :
    cleanLoop true (fuel + 1) ['.', '.'] out dd =
      some (out.take (backtrack out dd (out.length - 1))) := by
  rw [cleanLoop]
  simp [h, cleanLoop_nil]

/-- One round of the loop of `Clean` on a real path element. -/
theorem cleanLoop_elem (fuel : Nat) (c tl out : List Char) (dd : Nat)
    (h1 : c ≠ []) (h2 : '/' ∉ c) (h3 : c ≠ ['.']) (h4 : c ≠ ['.', '.'])
    (htl : tl = [] ∨ tl.head? = some '/') :
    cleanLoop true (fuel + 1) (c ++ tl) out dd =
      cleanLoop true fuel tl ((if out.length ≠ 1 then out ++ ['/'] else out) ++ c) dd := by
  obtain ⟨htw, hdw⟩ := takeWhile_elem c tl h2 htl
  cases c with
  | nil => exact absurd rfl h1
  | cons a cr =>
    have ha : a ≠ '/' := fun h => h2 (by simp [h])
    have hcr : '/' ∉ cr := fun h => h2 (by simp [h])
    have hdot : ¬ (a = '.' ∧ (cr ++ tl = [] ∨ (cr ++ tl).head? = some '/')) := by
      rintro ⟨hd, hh⟩
      cases cr with
      | nil => exact h3 (by simp [hd])
      | cons b cr2 =>
        simp at hh
        exact hcr (by simp [hh])
    have hdotdot : ¬ (a = '.' ∧ (cr ++ tl).head? = some '.' ∧
        ((cr ++ tl).tail = [] ∨ (cr ++ tl).tail.head? = some '/')) := by
      rintro ⟨hd, hh, ht⟩
      cases cr with
      | nil =>
        rcases htl with h | h
        · simp [h] at hh
        · simp [h] at hh
      | cons b cr2 =>
        simp at hh
        cases cr2 with
        | nil => exact h4 (by simp [hd, hh])
        | cons e cr3 =>
          simp at ht
          exact hcr (by simp [ht])
    rw [List.cons_append] at htw hdw ⊢
    rw [cleanLoop]
    rw [if_neg ha, if_neg hdot, if_neg hdotdot]
    simp only [htw, hdw]
    simp

theorem absPath_snoc_data (done : List String) (c : String)
    (hd : ∀ x ∈ done, IsElem x) :
    (if (absPath done).data.length ≠ 1 then (absPath done).data ++ ['/']
      else (absPath done).data) ++ c.data = (absPath (done ++ [c])).data := by
  cases done with
  | nil => simp [absPath, absTail]
  | cons d ds =>
    have hlen := absTail_length (d :: ds) hd
    have hne : (absTail (d :: ds)).data.length ≠ 1 := by
      simp only [List.length_cons] at hlen
      omega
    simp only [absPath, List.cons_append, reduceCtorEq, if_false, if_pos hne]
    rw [← List.cons_append, absTail_append]
    simp [absTail]

/-- The loop of `Clean` copies a run of real path elements unchanged. -/
theorem cleanLoop_elems :
    ∀ (cs done : List String) (tl : List Char) (fuel : Nat),
      (∀ x ∈ cs, IsElem x) → (∀ x ∈ done, IsElem x) →
      (tl = [] ∨ tl.head? = some '/') →
      cleanLoop true (fuel + 2 * cs.length) ((absTail cs).data ++ tl) (absPath done).data 1 =
        cleanLoop true fuel tl (absPath (done ++ cs)).data 1 := by
  intro cs
  induction cs with
  | nil => intro done tl fuel _ _ _; simp [absTail]
  | cons c cs ih =>
    intro done tl fuel hcs hd htl
    have hc := (hcs c (List.mem_cons_self _ _)).chars
    have hcs2 : ∀ x ∈ cs, IsElem x := fun x hx => hcs x (List.mem_cons_of_mem _ hx)
    have hd2 : ∀ x ∈ done ++ [c], IsElem x := by
      intro x hx
      rcases List.mem_append.mp hx with h | h
      · exact hd x h
      · rw [List.mem_singleton.mp h]; exact hcs c (List.mem_cons_self _ _)
    have htl2 : (absTail cs).data ++ tl = [] ∨ ((absTail cs).data ++ tl).head? = some '/' := by
      cases cs with
      | nil => simpa [absTail] using htl
      | cons e es => right; simp [absTail]
    have hshape : (absTail (c :: cs)).data ++ tl = '/' :: (c.data ++ ((absTail cs).data ++ tl)) := by
      simp [absTail]
    have hfuel : fuel + 2 * (c :: cs).length = (fuel + 2 * cs.length + 1) + 1 := by
      simp only [List.length_cons]; omega
    rw [hshape, hfuel, cleanLoop_slash,
      cleanLoop_elem _ _ _ _ _ hc.1 hc.2.1 hc.2.2.1 hc.2.2.2 htl2,
      absPath_snoc_data done c hd, ih (done ++ [c]) tl fuel hcs2 hd2 htl]
    simp

theorem backtrack_eq (out : List Char) (dd t : Nat) :
    ∀ w, t ≤ w → (∀ j, t < j → j ≤ w → dd < j ∧ out[j]? ≠ some '/') →
      (t ≤ dd ∨ out[t]? = some '/') → (t = 0 → w = 0) → backtrack out dd w = t := by
  intro w
  induction w with
  | zero => intro h _ _ _; simp [backtrack]; omega
  | succ w ih =>
    intro hle hj ht h0
    by_cases hEq : t = w + 1
    · subst hEq
      have : ¬ (w + 1 > dd ∧ out[w + 1]? ≠ some '/') := by
        rintro ⟨h1, h2⟩
        rcases ht with h | h
        · omega
        · exact h2 h
      simp only [backtrack, if_neg this]
    · have hlt : t ≤ w := by omega
      have hc := hj (w + 1) (by omega) (Nat.le_refl _)
      have hcond : w + 1 > dd ∧ out[w + 1]? ≠ some '/' := ⟨hc.1, hc.2⟩
      simp only [backtrack, if_pos hcond]
      have ht0 : t ≠ 0 := fun h => by have := h0 h; omega
      exact ih hlt (fun j h1 h2 => hj j h1 (by omega)) ht (fun h => absurd h ht0)

/-- Backtracking at a `..` element removes the last element of a cleaned absolute
path. -/
theorem backtrack_absPath (cs : List String) (c : String)
    (h : ∀ x ∈ cs ++ [c], IsElem x) :
    (absPath (cs ++ [c])).data.take
        (backtrack (absPath (cs ++ [c])).data 1 ((absPath (cs ++ [c])).data.length - 1)) =
      (absPath cs).data := by
  have hc := (h c (by simp)).chars
  have hcs : ∀ x ∈ cs, IsElem x := fun x hx => h x (by simp [hx])
  have hclen : 0 < c.data.length := List.length_pos.mpr hc.1
  have hnotslash : ∀ i, i < c.data.length → c.data[i]? ≠ some '/' := by
    intro i hi hget
    have := List.getElem?_mem hget
    exact hc.2.1 this
  cases cs with
  | nil =>
    have hout : (absPath ([] ++ [c])).data = '/' :: c.data := by simp [absPath, absTail]
    rw [hout]
    have hb : backtrack ('/' :: c.data) 1 (('/' :: c.data).length - 1) = 1 := by
      apply backtrack_eq
      · simp only [List.length_cons]; omega
      · intro j h1 h2
        refine ⟨h1, ?_⟩
        obtain ⟨k, rfl⟩ : ∃ k, j = k + 1 := ⟨j - 1, by omega⟩
        simp only [List.getElem?_cons_succ]
        apply hnotslash
        simp only [List.length_cons] at h2
        omega
      · left; exact Nat.le_refl _
      · intro h; omega
    rw [hb]
    simp [absPath]
  | cons d ds =>
    have hlen := absTail_length (d :: ds) hcs
    simp only [List.length_cons] at hlen
    have hout : (absPath (d :: ds ++ [c])).data = (absTail (d :: ds)).data ++ '/' :: c.data := by
      simp only [absPath, List.cons_append, reduceCtorEq, if_false]
      rw [← List.cons_append, absTail_append]
      simp [absTail]
    rw [hout]
    have hb : backtrack ((absTail (d :: ds)).data ++ '/' :: c.data) 1
        (((absTail (d :: ds)).data ++ '/' :: c.data).length - 1) =
          (absTail (d :: ds)).data.length := by
      apply backtrack_eq
      · simp only [List.length_append, List.length_cons]; omega
      · intro j h1 h2
        refine ⟨by omega, ?_⟩
        obtain ⟨k, rfl⟩ : ∃ k, j = (absTail (d :: ds)).data.length + (k + 1) :=
          ⟨j - (absTail (d :: ds)).data.length - 1, by omega⟩
        rw [List.getElem?_append_right (by omega)]
        simp only [Nat.add_sub_cancel_left, List.getElem?_cons_succ]
        apply hnotslash
        simp only [List.length_append, List.length_cons] at h2
        omega
      · right
        rw [List.getElem?_append_right (Nat.le_refl _)]
        simp
      · intro h; omega
    rw [hb]
    simp [absPath]

theorem absPath_data_ne_nil (cs : List String) : (absPath cs).data ≠ [] := by
  cases cs with
  | nil => simp [absPath]
  | cons c cs => simp [absPath, absTail]

/-- Cleaning a path that starts with a non-empty run of real elements: the run is
copied and the loop goes on with the rest of the input. -/
theorem cleanChars_absTail (cs : List String) (tl : List Char)
    (hne : cs ≠ []) (hcs : ∀ x ∈ cs, IsElem x) (htl : tl = [] ∨ tl.head? = some '/') :
    ∃ fuel, tl.length ≤ fuel ∧
      cleanChars ((absTail cs).data ++ tl) =
        match cleanLoop true fuel tl (absPath cs).data 1 with
        | some out => if out.length = 0 then ['.'] else out
        | none => (absTail cs).data ++ tl := by
  have hlen := absTail_length cs hcs
  obtain ⟨rest, hrest⟩ : ∃ rest, (absTail cs).data ++ tl = '/' :: rest := by
    cases cs with
    | nil => exact absurd rfl hne
    | cons c cs => exact ⟨c.data ++ ((absTail cs).data ++ tl), by simp [absTail]⟩
  have hplen : ((absTail cs).data ++ tl).length = (absTail cs).data.length + tl.length :=
    List.length_append _ _
  refine ⟨((absTail cs).data ++ tl).length + 1 - 2 * cs.length, by omega, ?_⟩
  have hfuel : ((absTail cs).data ++ tl).length + 1 =
      (((absTail cs).data ++ tl).length + 1 - 2 * cs.length) + 2 * cs.length := by omega
  have hstart : cleanLoop true ((absTail cs).data ++ tl).length
      ((absTail cs).data ++ tl).tail ['/'] 1 =
        cleanLoop true (((absTail cs).data ++ tl).length + 1 - 2 * cs.length) tl
          (absPath cs).data 1 := by
    have h1 : cleanLoop true ((absTail cs).data ++ tl).length
        ((absTail cs).data ++ tl).tail ['/'] 1 =
          cleanLoop true (((absTail cs).data ++ tl).length + 1)
            ((absTail cs).data ++ tl) (absPath []).data 1 := by
      conv_rhs => rw [hrest, cleanLoop_slash]
      rw [hrest]
      simp [absPath]
    rw [h1, hfuel]
    have := cleanLoop_elems cs [] tl
      (((absTail cs).data ++ tl).length + 1 - 2 * cs.length) hcs (by simp) htl
    rw [← hfuel]
    rw [← hfuel] at this
    simpa using this
  have hnn : (absTail cs).data ++ tl ≠ [] := by rw [hrest]; simp
  have hhead : ((absTail cs).data ++ tl).head? = some '/' := by rw [hrest]; simp
  simp only [cleanChars, if_neg hnn, hhead, if_true, hstart]

/-- A cleaned absolute path is a fixed point of `Clean`. -/
theorem Clean_absPath (cs : List String) (hcs : ∀ x ∈ cs, IsElem x) :
    Clean (absPath cs) = absPath cs := by
  by_cases hne : cs = []
  · subst hne; decide
  · obtain ⟨fuel, _, h⟩ := cleanChars_absTail cs [] hne hcs (Or.inl rfl)
    have hout : (absPath cs).data.length ≠ 0 := by
      intro h0
      exact absPath_data_ne_nil cs (List.length_eq_zero.mp h0)
    apply String.ext
    have habs : absPath cs = absTail cs := by simp [absPath, hne]
    simp only [Clean]
    rw [habs] at hout ⊢
    simp only [List.append_nil] at h
    rw [h, cleanLoop_nil, habs]
    exact if_neg hout

/-- Joining `..` to a cleaned absolute path other than the root yields the path
without its last element. -/
theorem Join_dotdot (cs : List String) (c : String) (h : ∀ x ∈ cs ++ [c], IsElem x) :
    Join [absPath (cs ++ [c]), ".."] = absPath cs := by
  have hne : cs ++ [c] ≠ [] := by simp
  have habs : absPath (cs ++ [c]) = absTail (cs ++ [c]) := by simp [absPath]
  have hnonempty : absPath (cs ++ [c]) ≠ "" := by
    intro h0
    exact absPath_data_ne_nil (cs ++ [c]) (by rw [h0])
  obtain ⟨fuel, hfuel, hclean⟩ :=
    cleanChars_absTail (cs ++ [c]) ['/', '.', '.'] hne h (Or.inr rfl)
  have hlenout : (absPath (cs ++ [c])).data.length > 1 := by
    have := absTail_length (cs ++ [c]) h
    rw [habs]
    simp only [List.length_append, List.length_singleton] at this
    omega
  have hback := backtrack_absPath cs c h
  have hout : (absPath cs).data.length ≠ 0 := by
    intro h0
    exact absPath_data_ne_nil cs (List.length_eq_zero.mp h0)
  obtain ⟨f, rfl⟩ : ∃ f, fuel = f + 2 := ⟨fuel - 2, by simp at hfuel; omega⟩
  apply String.ext
  simp only [Join, if_pos hnonempty, Clean, joinSep]
  have hdata : (absPath (cs ++ [c]) ++ "/" ++ "..").data =
      (absTail (cs ++ [c])).data ++ ['/', '.', '.'] := by
    rw [habs]; simp
  rw [hdata, hclean]
  rw [cleanLoop_slash, cleanLoop_dotdot_end _ _ _ hlenout, hback]
  exact if_neg hout

/-- Joining a relative path made of real elements to a cleaned absolute path other
than the root appends the elements. -/
theorem Join_absPath (hs ds : List String) (rel : String) (hne : hs ≠ [])
    (hhs : ∀ x ∈ hs, IsElem x) (hds : ∀ x ∈ ds, IsElem x) (hrel : "/" ++ rel = absTail ds) :
    Join [absPath hs, rel] = absPath (hs ++ ds) := by
  have hnonempty : absPath hs ≠ "" := by
    intro h0
    exact absPath_data_ne_nil hs (by rw [h0])
  have hall : ∀ x ∈ hs ++ ds, IsElem x := by
    intro x hx
    rcases List.mem_append.mp hx with h | h
    · exact hhs x h
    · exact hds x h
  have hjoin : joinSep [absPath hs, rel] = absPath (hs ++ ds) := by
    have h1 : absPath hs = absTail hs := by simp [absPath, hne]
    have h2 : absPath (hs ++ ds) = absTail (hs ++ ds) := by simp [absPath, hne]
    rw [h1, h2, absTail_append, ← hrel]
    simp [joinSep, String.append_assoc]
  simp only [Join, if_pos hnonempty]
  rw [hjoin]
  exact Clean_absPath _ hall

end filepath

/-! ## Lemmas on the program -/

namespace Flutter

@[simp] theorem invocations_append (a b : List Event) :
    invocations (a ++ b) = invocations a ++ invocations b := by
  induction a with
  | nil => rfl
  | cons e t ih => cases e <;> simp [invocations, ih]

@[simp] theorem announced_append (a b : List Event) :
    announced (a ++ b) = announced a ++ announced b := by
  induction a with
  | nil => rfl
  | cons e t ih =>
    cases e <;> simp [announced, ih]
    split <;> simp

@[simp] theorem extractSdkCalls_append (a b : List Event) :
    extractSdkCalls (a ++ b) = extractSdkCalls a + extractSdkCalls b := by
  induction a with
  | nil => simp [extractSdkCalls]
  | cons e t ih => cases e <;> simp [extractSdkCalls, ih]; omega

@[simp] theorem maxStage_append (a b : List Event) :
    maxStage (a ++ b) = max (maxStage a) (maxStage b) := by
  induction a with
  | nil => simp [maxStage]
  | cons e t ih => simp [maxStage, ih, Nat.max_assoc]

@[simp] theorem presenceChecks_append (a b : List Event) :
    presenceChecks (a ++ b) = presenceChecks a ++ presenceChecks b := by
  induction a with
  | nil => rfl
  | cons e t ih => cases e <;> simp [presenceChecks, ih]

@[simp] theorem downloadURLs_append (a b : List Event) :
    downloadURLs (a ++ b) = downloadURLs a ++ downloadURLs b := by
  induction a with
  | nil => rfl
  | cons e t ih => cases e <;> simp [downloadURLs, ih]

@[simp] theorem extractionTargets_append (a b : List Event) :
    extractionTargets (a ++ b) = extractionTargets a ++ extractionTargets b := by
  induction a with
  | nil => rfl
  | cons e t ih => cases e <;> simp [extractionTargets, ih]

@[simp] theorem removals_append (a b : List Event) :
    removals (a ++ b) = removals a ++ removals b := by
  induction a with
  | nil => rfl
  | cons e t ih => cases e <;> simp [removals, ih]

/-- The index `len(versionComponents)-1` is always in range: `extractSdk` returns. -/
theorem extractSdk_returns (env : Env) (v d : String) (files : List String) :
    ∃ r, (extractSdk env v d files).1 = .value r := by
  obtain ⟨ch, hch, -⟩ := channel_spec v
  unfold extractSdk
  simp only [hch]
  split
  · exact ⟨_, rfl⟩
  · split
    · split <;> exact ⟨_, rfl⟩
    · exact ⟨_, rfl⟩

theorem downloadFile_obs (env : Env) (url file : String) :
    invocations (downloadFile env url file).2 = [] ∧
      announced (downloadFile env url file).2 = [] ∧
      extractSdkCalls (downloadFile env url file).2 = 0 ∧
      presenceChecks (downloadFile env url file).2 = [] ∧
      maxStage (downloadFile env url file).2 ≤ 5 := by
  unfold downloadFile
  cases env.Get url <;> cases env.Copy <;> cases env.BodyClose <;>
    simp [invocations, announced, extractSdkCalls, presenceChecks, maxStage, Event.stage]

/-- Inside `extractSdk` no command is run or announced and `extractSdk` is not
called again. -/
theorem extractSdk_obs (env : Env) (v d : String) (files : List String) :
    invocations (extractSdk env v d files).2.2 = [] ∧
      announced (extractSdk env v d files).2.2 = [] ∧
      extractSdkCalls (extractSdk env v d files).2.2 = 0 ∧
      presenceChecks (extractSdk env v d files).2.2 = [] ∧
      maxStage (extractSdk env v d files).2.2 ≤ 5 := by
  unfold extractSdk
  cases hch : channel v with
  | none => simp [invocations, announced, extractSdkCalls, presenceChecks, maxStage, Event.stage]
  | some ch =>
    by_cases hd : env.GOOS = "darwin"
    · simp [hd, invocations, announced, extractSdkCalls, presenceChecks, maxStage, Event.stage]
    · by_cases hl : env.GOOS = "linux"
      · rcases htf : ioutilTempFile env files env.TempDir "flutter" with ⟨r, files1⟩
        cases r with
        | error e =>
          simp [hl, htf, invocations, announced, extractSdkCalls, presenceChecks, maxStage, Event.stage]
        | ok file =>
          obtain ⟨h1, h2, h3, h4, h5⟩ :=
            downloadFile_obs env (flutterSdkSourceURL env v ch) file
          cases hdl : (downloadFile env (flutterSdkSourceURL env v ch) file).1 <;>
            cases hrm : (osRemove files1 file).1 <;>
            simp [hl, htf, hdl, hrm, h1, h2, h3, h4, invocations, announced,
              extractSdkCalls, presenceChecks, maxStage, Event.stage] <;>
            omega
      · simp [hd, hl, invocations, announced, extractSdkCalls, presenceChecks, maxStage, Event.stage]

/-- The install step calls `extractSdk` once when the directory is absent and not
at all when it is present, and runs no command. -/
theorem installStep_obs (env : Env) (cfg : Configs) (d : String) (b : Bool) :
    invocations (installStep env cfg d b).2.2 = [] ∧
      announced (installStep env cfg d b).2.2 = [] ∧
      extractSdkCalls (installStep env cfg d b).2.2 = (if b then 0 else 1) ∧
      presenceChecks (installStep env cfg d b).2.2 = [] ∧
      maxStage (installStep env cfg d b).2.2 ≤ 5 := by
  obtain ⟨h1, h2, h3, h4, h5⟩ := extractSdk_obs env cfg.Version d env.files
  unfold installStep
  cases b with
  | true => simp [invocations, announced, extractSdkCalls, presenceChecks, maxStage, Event.stage]
  | false =>
    rcases hx : extractSdk env cfg.Version d env.files with ⟨r, files, t⟩
    rw [hx] at h1 h2 h3 h4 h5
    simp only [] at h1 h2 h3 h4 h5
    rcases r with (_ | err) | msg <;>
      simp [h1, h2, h3, h4, invocations, announced, extractSdkCalls, presenceChecks,
        maxStage, Event.stage] <;> omega

theorem bashCommand_eq (d c : String) :
    bashCommand d c = filepath.Join [d, "bin/flutter"] ++ " " ++ c := by
  apply String.ext
  simp [bashCommand, fmt.Sprintf, fmt.sprintfLoop]

theorem runCommands_obs (env : Env) (cfg : Configs) (d : String) :
    ∀ (cmds : List String) (k : Nat),
      extractSdkCalls (runCommands env cfg d k cmds).2 = 0 ∧
        presenceChecks (runCommands env cfg d k cmds).2 = [] ∧
        maxStage (runCommands env cfg d k cmds).2 ≤ 6 := by
  intro cmds
  induction cmds with
  | nil => intro k; simp [runCommands, extractSdkCalls, presenceChecks, maxStage]
  | cons c cs ih =>
    intro k
    obtain ⟨h1, h2, h3⟩ := ih (k + 1)
    unfold runCommands
    cases env.RunCommandInDir k with
    | none =>
      simp [h1, h2, extractSdkCalls, presenceChecks, maxStage, Event.stage]
      omega
    | some err =>
      simp [extractSdkCalls, presenceChecks, maxStage, Event.stage]

/-- When no command fails the loop runs every command once, in list order. -/
theorem runCommands_ok (env : Env) (cfg : Configs) (d : String) :
    ∀ (cmds : List String) (k : Nat),
      (∀ j, j < cmds.length → env.RunCommandInDir (k + j) = none) →
      (runCommands env cfg d k cmds).1 = 0 ∧
        invocations (runCommands env cfg d k cmds).2 =
          cmds.map (invocationFor cfg.WorkingDir d) ∧
        announced (runCommands env cfg d k cmds).2 = cmds := by
  intro cmds
  induction cmds with
  | nil => intro k _; simp [runCommands, invocations, announced]
  | cons c cs ih =>
    intro k h
    have h0 : env.RunCommandInDir k = none := by simpa using h 0 (by simp)
    obtain ⟨h1, h2, h3⟩ := ih (k + 1) (fun j hj => by
      have := h (j + 1) (by simpa using hj)
      rwa [show k + (j + 1) = k + 1 + j by omega] at this)
    unfold runCommands
    simp [h0, h1, h2, h3, invocations, announced, invocationFor, bashCommand_eq]

/-- When the command at index `i` is the first to fail the loop runs the commands
`0..i` once, in list order, and ends the run with exit code `3`. -/
theorem runCommands_fail (env : Env) (cfg : Configs) (d : String) :
    ∀ (cmds : List String) (k i : Nat) (err : String), i < cmds.length →
      (∀ j, j < i → env.RunCommandInDir (k + j) = none) →
      env.RunCommandInDir (k + i) = some err →
      (runCommands env cfg d k cmds).1 = 3 ∧
        invocations (runCommands env cfg d k cmds).2 =
          (cmds.take (i + 1)).map (invocationFor cfg.WorkingDir d) ∧
        announced (runCommands env cfg d k cmds).2 = cmds.take (i + 1) := by
  intro cmds
  induction cmds with
  | nil => intro k i err hi; simp at hi
  | cons c cs ih =>
    intro k i err hi hbefore hfail
    cases i with
    | zero =>
      have h0 : env.RunCommandInDir k = some err := by simpa using hfail
      unfold runCommands
      simp [h0, invocations, announced, invocationFor, bashCommand_eq]
    | succ i =>
      have h0 : env.RunCommandInDir k = none := by simpa using hbefore 0 (by omega)
      obtain ⟨h1, h2, h3⟩ := ih (k + 1) i err (by simpa using hi)
        (fun j hj => by
          have := hbefore (j + 1) (by omega)
          rwa [show k + (j + 1) = k + 1 + j by omega] at this)
        (by rwa [show k + (i + 1) = k + 1 + i by omega] at hfail)
      unfold runCommands
      simp [h0, h1, h2, h3, invocations, announced, invocationFor, bashCommand_eq]

/-- The invocations issued by the loop are always an initial segment of the
configured commands, each turned into its `bash -c` invocation. -/
theorem runCommands_initial_segment (env : Env) (cfg : Configs) (d : String) :
    ∀ (cmds : List String) (k : Nat), ∃ n, n ≤ cmds.length ∧
      invocations (runCommands env cfg d k cmds).2 =
        (cmds.take n).map (invocationFor cfg.WorkingDir d) := by
  intro cmds
  induction cmds with
  | nil => intro k; exact ⟨0, by simp [runCommands, invocations]⟩
  | cons c cs ih =>
    intro k
    obtain ⟨n, hn, h⟩ := ih (k + 1)
    unfold runCommands
    cases h0 : env.RunCommandInDir k with
    | some err =>
      exact ⟨1, by simp, by simp [invocations, invocationFor, bashCommand_eq]⟩
    | none =>
      exact ⟨n + 1, by simpa using hn,
        by simp [h, invocations, invocationFor, bashCommand_eq]⟩

/-! ### The branches of `main` -/

theorem main_setup_fail (env : Env) (err : String)
    (h1 : env.ensureAndroidSdkSetup = some err) :
    main env = ⟨6, env.files,
      [.ensureAndroidSdkSetup,
        .log .error "Could not setup Android SDK, error: %s" [err]]⟩ := by
  unfold main
  simp only [h1]

theorem main_validate_fail (env : Env) (err : String)
    (h1 : env.ensureAndroidSdkSetup = none) (h2 : env.validate env.configs = some err) :
    main env = ⟨4, env.files,
      [.ensureAndroidSdkSetup, .createConfigsModelFromEnvs, .validate,
        .log .error "Could not validate config, error: %s" [err]]⟩ := by
  unfold main
  simp only [h1, h2, List.cons_append, List.nil_append]

theorem main_destination_fail (env : Env) (p err : String)
    (h1 : env.ensureAndroidSdkSetup = none) (h2 : env.validate env.configs = none)
    (h3 : getSdkDestinationDir env = (p, some err)) :
    main env = ⟨5, env.files,
      [.ensureAndroidSdkSetup, .createConfigsModelFromEnvs, .validate, .dump,
        .log .error "Could not validate config, error: %s" [err]]⟩ := by
  unfold main
  simp only [h1, h2, h3, List.cons_append, List.nil_append]

theorem main_presence_fail (env : Env) (dir err : String)
    (h1 : env.ensureAndroidSdkSetup = none) (h2 : env.validate env.configs = none)
    (h3 : getSdkDestinationDir env = (dir, none))
    (h4 : env.IsDirExists dir = .error err) :
    main env = ⟨1, env.files,
      [.ensureAndroidSdkSetup, .createConfigsModelFromEnvs, .validate, .dump,
        .isDirExists dir,
        .log .error "Could not check if Flutter SDK is installed, error: %s" [err]]⟩ := by
  unfold main
  simp only [h1, h2, h3, h4, List.cons_append, List.nil_append]

theorem main_install_fail (env : Env) (dir : String) (b : Bool) (code : Nat)
    (files : List String) (ti : List Event) (h : ReachesInstall env dir b)
    (h5 : installStep env env.configs dir b = (some code, files, ti)) :
    main env = ⟨code, files,
      [.ensureAndroidSdkSetup, .createConfigsModelFromEnvs, .validate, .dump,
        .isDirExists dir] ++ ti⟩ := by
  obtain ⟨h1, h2, h3, h4⟩ := h
  unfold main
  simp only [h1, h2, h3, h4, h5, List.cons_append, List.nil_append]

theorem main_commands (env : Env) (dir : String) (b : Bool)
    (files : List String) (ti : List Event) (h : ReachesInstall env dir b)
    (h5 : installStep env env.configs dir b = (none, files, ti)) :
    main env = ⟨(runCommands env env.configs dir 0 env.configs.Commands).1, files,
      [.ensureAndroidSdkSetup, .createConfigsModelFromEnvs, .validate, .dump,
        .isDirExists dir] ++ ti ++
        (runCommands env env.configs dir 0 env.configs.Commands).2⟩ := by
  obtain ⟨h1, h2, h3, h4⟩ := h
  unfold main
  simp only [h1, h2, h3, h4, h5, List.cons_append, List.nil_append]

/-- Shape of every run: effects before the command loop, in which no command is
run, followed either by nothing (the run ended early) or by the command loop. -/
theorem main_shape (env : Env) :
    ∃ pre post, (main env).trace = pre ++ post ∧
      invocations pre = [] ∧ announced pre = [] ∧ extractSdkCalls pre ≤ 1 ∧
      (post = [] ∨
        post = (runCommands env env.configs (getSdkDestinationDir env).1 0
          env.configs.Commands).2) := by
  cases h1 : env.ensureAndroidSdkSetup with
  | some err =>
    rw [main_setup_fail env err h1]
    exact ⟨_, [], (List.append_nil _).symm,
      by simp [invocations], by simp [announced], by simp [extractSdkCalls], Or.inl rfl⟩
  | none =>
    cases h2 : env.validate env.configs with
    | some err =>
      rw [main_validate_fail env err h1 h2]
      exact ⟨_, [], (List.append_nil _).symm,
        by simp [invocations], by simp [announced], by simp [extractSdkCalls], Or.inl rfl⟩
    | none =>
      rcases h3 : getSdkDestinationDir env with ⟨dir, e⟩
      cases e with
      | some err =>
        rw [main_destination_fail env dir err h1 h2 h3]
        exact ⟨_, [], (List.append_nil _).symm,
          by simp [invocations], by simp [announced], by simp [extractSdkCalls], Or.inl rfl⟩
      | none =>
        cases h4 : env.IsDirExists dir with
        | error err =>
          rw [main_presence_fail env dir err h1 h2 h3 h4]
          exact ⟨_, [], (List.append_nil _).symm,
            by simp [invocations], by simp [announced], by simp [extractSdkCalls], Or.inl rfl⟩
        | ok b =>
          obtain ⟨i1, i2, i3, -, -⟩ := installStep_obs env env.configs dir b
          rcases h5 : installStep env env.configs dir b with ⟨code, files, ti⟩
          rw [h5] at i1 i2 i3
          simp only [] at i1 i2 i3
          have i3le : extractSdkCalls ti ≤ 1 := by rw [i3]; split <;> omega
          cases code with
          | some c =>
            rw [main_install_fail env dir b c files ti ⟨h1, h2, h3, h4⟩ h5]
            exact ⟨_, [], (List.append_nil _).symm,
              by simp [invocations, i1], by simp [announced, i2],
              by simp [extractSdkCalls, i3le], Or.inl rfl⟩
          | none =>
            rw [main_commands env dir b files ti ⟨h1, h2, h3, h4⟩ h5]
            exact ⟨_, _, rfl, by simp [invocations, i1], by simp [announced, i2],
              by simp [extractSdkCalls, i3le], Or.inr rfl⟩

/-- A run that reaches the command loop is its earlier effects followed by the loop. -/
theorem main_reaches (env : Env) (dir : String) (h : ReachesCommands env dir) :
    ∃ files pre, invocations pre = [] ∧ announced pre = [] ∧
      main env =
        ⟨(runCommands env env.configs dir 0 env.configs.Commands).1, files,
          pre ++ (runCommands env env.configs dir 0 env.configs.Commands).2⟩ := by
  obtain ⟨h1, h2, h3, b, h4, h5⟩ := h
  obtain ⟨i1, i2, -, -, -⟩ := installStep_obs env env.configs dir b
  rcases h6 : installStep env env.configs dir b with ⟨code, files, ti⟩
  rw [h6] at i1 i2 h5
  simp only [] at i1 i2 h5
  subst h5
  exact ⟨files, _, by simp [invocations, i1], by simp [announced, i2],
    main_commands env dir b files ti ⟨h1, h2, h3, h4⟩ h6⟩

end Flutter

namespace filepath

/-- The fuel passed by `Clean` is enough: the loop never runs out of fuel on an
input no longer than the fuel. -/
theorem cleanLoop_isSome (rooted : Bool) :
    ∀ (fuel : Nat) (path out : List Char) (dd : Nat), path.length ≤ fuel →
      (cleanLoop rooted fuel path out dd).isSome = true := by
  intro fuel
  induction fuel with
  | zero =>
    intro path out dd h
    have : path = [] := List.length_eq_zero.mp (Nat.le_zero.mp h)
    subst this
    rfl
  | succ f ih =>
    intro path out dd h
    cases path with
    | nil => rfl
    | cons c t =>
      have ht : t.length ≤ f := by simpa using h
      have htt : t.tail.length ≤ f := by
        have := List.length_tail t
        omega
      rw [cleanLoop]
      split
      · exact ih _ _ _ ht
      · split
        · exact ih _ _ _ ht
        · split
          · split
            · exact ih _ _ _ htt
            · split
              · exact ih _ _ _ htt
              · exact ih _ _ _ htt
          · rename_i hc _ _
            apply ih
            have hdrop : (c :: t).dropWhile (· ≠ '/') = t.dropWhile (· ≠ '/') := by
              simp [List.dropWhile_cons, hc]
            rw [hdrop]
            exact Nat.le_trans (List.dropWhile_sublist _).length_le ht

/-- The function `Clean` always gets a result from its loop. -/
theorem cleanChars_loop_total (path : List Char) :
    (cleanLoop true path.length path.tail ['/'] 1).isSome = true ∧
      (cleanLoop false path.length path [] 0).isSome = true :=
  ⟨cleanLoop_isSome true _ _ _ _ (by have := List.length_tail path; omega),
    cleanLoop_isSome false _ _ _ _ (Nat.le_refl _)⟩

end filepath

/-! ## Properties of the specification -/

namespace Flutter

theorem downloadFile_urls (env : Env) (url file : String) :
    downloadURLs (downloadFile env url file).2 = [url] ∧
      extractionTargets (downloadFile env url file).2 = [] ∧
      removals (downloadFile env url file).2 = [] := by
  unfold downloadFile
  cases env.Get url <;> cases env.Copy <;> cases env.BodyClose <;>
    simp [downloadURLs, extractionTargets, removals]

/-- Unfolding of `extractSdk` on the temporary-file (linux) path once the
temporary file has been created. -/
theorem extractSdk_linux (env : Env) (v d ch file : String) (files files1 : List String)
    (hl : env.GOOS = "linux") (hch : channel v = some ch)
    (htf : ioutilTempFile env files env.TempDir "flutter" = (.ok file, files1)) :
    extractSdk env v d files =
      (.value
          (match (downloadFile env (flutterSdkSourceURL env v ch) file).1 with
           | some err => some err
           | none => env.TarXZOpen file (flutterSdkParentDir d)),
        (osRemove files1 file).2,
        [Event.log .info "Extracting Flutter SDK to %s" [d],
            .tempFile env.TempDir "flutter"] ++
          (downloadFile env (flutterSdkSourceURL env v ch) file).2 ++
          (match (downloadFile env (flutterSdkSourceURL env v ch) file).1 with
           | some _ => []
           | none => [Event.tarXZOpen file (flutterSdkParentDir d)]) ++
          Event.remove file ::
            (match (osRemove files1 file).1 with
             | some err => [Event.log .error "Failed to remove temporary file:" [err]]
             | none => [])) := by
  have hd : env.GOOS ≠ "darwin" := by rw [hl]; decide
  unfold extractSdk
  simp only [hch, hl, htf]
  cases (downloadFile env (flutterSdkSourceURL env v ch) file).1 <;> simp

theorem extractSdk_linux_tempFile_fail (env : Env) (v d ch err : String)
    (files files1 : List String)
    (hl : env.GOOS = "linux") (hch : channel v = some ch)
    (htf : ioutilTempFile env files env.TempDir "flutter" = (.error err, files1)) :
    extractSdk env v d files =
      (.value (some err), files,
        [Event.log .info "Extracting Flutter SDK to %s" [d],
          .tempFile env.TempDir "flutter"]) := by
  have hf : files1 = files := by
    unfold ioutilTempFile at htf
    split at htf
    · simp at htf; exact htf.2.symm
    · split at htf <;> simp at htf
      exact htf.2.symm
  unfold extractSdk
  simp [hch, hl, htf, hf]

theorem extractSdk_darwin (env : Env) (v d ch : String) (files : List String)
    (hd : env.GOOS = "darwin") (hch : channel v = some ch) :
    extractSdk env v d files =
      (.value (env.DownloadAndUnZIP (flutterSdkSourceURL env v ch) (flutterSdkParentDir d)),
        files,
        [Event.log .info "Extracting Flutter SDK to %s" [d],
          .downloadAndUnZIP (flutterSdkSourceURL env v ch) (flutterSdkParentDir d)]) := by
  unfold extractSdk
  simp [hch, hd]

theorem extractSdk_unsupported (env : Env) (v d ch : String) (files : List String)
    (hd : env.GOOS ≠ "darwin") (hl : env.GOOS ≠ "linux") (hch : channel v = some ch) :
    extractSdk env v d files =
      (.value (some (fmt.Sprintf "unsupported OS: %s" [env.GOOS])), files,
        [Event.log .info "Extracting Flutter SDK to %s" [d]]) := by
  unfold extractSdk
  simp [hch, hd, hl]

theorem main_extractSdkCalls_le (env : Env) : extractSdkCalls (main env).trace ≤ 1 := by
  obtain ⟨pre, post, ht, -, -, hpre, hpost⟩ := main_shape env
  rw [ht, extractSdkCalls_append]
  rcases hpost with h | h
  · rw [h]; simpa [extractSdkCalls] using hpre
  · rw [h, (runCommands_obs env env.configs _ _ 0).1]; simpa using hpre

theorem main_extractSdkCalls_eq (env : Env) (dir : String) (b : Bool)
    (h : ReachesInstall env dir b) :
    extractSdkCalls (main env).trace = if b then 0 else 1 := by
  obtain ⟨-, -, i3, -, -⟩ := installStep_obs env env.configs dir b
  rcases h5 : installStep env env.configs dir b with ⟨code, files, ti⟩
  rw [h5] at i3
  simp only [] at i3
  cases code with
  | some c =>
    rw [main_install_fail env dir b c files ti h h5]
    simp [extractSdkCalls, i3]
  | none =>
    rw [main_commands env dir b files ti h h5]
    simp [extractSdkCalls, i3, (runCommands_obs env env.configs dir _ 0).1]

/-- C2: when the run reaches the command loop and the command at index `i` is the
first whose execution returns an error, `main` executes exactly the commands at
indices `0..i`, each once and in list order, executes no later command, ends with
exit code `3`, and the last command announced is the failing one; when no command
fails, all commands are executed once in list order. -/
theorem C2_stops_at_first_failing_command (env : Env) (dir : String)
    (h : ReachesCommands env dir) :
    (∀ i err, i < env.configs.Commands.length →
        (∀ j, j < i → env.RunCommandInDir j = none) →
        env.RunCommandInDir i = some err →
        invocations (main env).trace =
            (env.configs.Commands.take (i + 1)).map
              (invocationFor env.configs.WorkingDir dir) ∧
          announced (main env).trace = env.configs.Commands.take (i + 1) ∧
          (announced (main env).trace).getLast? = env.configs.Commands[i]? ∧
          (main env).exitCode = 3) ∧
      ((∀ j, j < env.configs.Commands.length → env.RunCommandInDir j = none) →
        invocations (main env).trace =
            env.configs.Commands.map (invocationFor env.configs.WorkingDir dir) ∧
          announced (main env).trace = env.configs.Commands ∧
          (main env).exitCode = 0) := by
  obtain ⟨files, pre, hp1, hp2, hmain⟩ := main_reaches env dir h
  constructor
  · intro i err hi hbefore hfail
    obtain ⟨r1, r2, r3⟩ := runCommands_fail env env.configs dir env.configs.Commands 0 i err hi
      (fun j hj => by simpa using hbefore j hj) (by simpa using hfail)
    rw [hmain]
    simp only [invocations_append, announced_append, hp1, hp2, List.nil_append, r1, r2, r3]
    refine ⟨trivial, trivial, ?_, trivial⟩
    rw [List.getLast?_eq_getElem?]
    simp [List.length_take, Nat.min_eq_left (Nat.succ_le_of_lt hi), List.getElem?_take]
  · intro hall
    obtain ⟨r1, r2, r3⟩ := runCommands_ok env env.configs dir env.configs.Commands 0
      (fun j hj => by simpa using hall j hj)
    rw [hmain]
    simp only [invocations_append, announced_append, hp1, hp2, List.nil_append, r1, r2, r3]
    exact ⟨trivial, trivial, trivial⟩

/-- C2 at a concrete run: the second of three commands fails, the first two are
executed, the third never runs and the exit code is `3`. -/
theorem C2_witness :
    invocations (main secondFailsEnv).trace =
        [("/src/app", "bash", ["-c", "/opt/flutter/bin/flutter build apk"]),
         ("/src/app", "bash", ["-c", "/opt/flutter/bin/flutter test"])] ∧
      (announced (main secondFailsEnv).trace).getLast? = some "test" ∧
      (main secondFailsEnv).exitCode = 3 := by
  have h := (C2_stops_at_first_failing_command secondFailsEnv "/opt/flutter"
    ⟨rfl, rfl, rfl, true, rfl, rfl⟩).1 1 "exit status 1" (by decide) (by decide) rfl
  exact ⟨h.1.trans (by decide), h.2.2.1.trans (by decide), h.2.2.2⟩

theorem getSdkDestinationDir_unsupported (env : Env)
    (hd : env.GOOS ≠ "darwin") (hl : env.GOOS ≠ "linux") :
    getSdkDestinationDir env = ("", some ("unsupported OS: " ++ env.GOOS)) := by
  have hs : fmt.Sprintf "unsupported OS: %s" [env.GOOS] = "unsupported OS: " ++ env.GOOS := by
    apply String.ext
    simp [fmt.Sprintf, fmt.sprintfLoop]
  unfold getSdkDestinationDir
  simp [hd, hl, hs]

/-- C5, as the code has it: for every host OS other than `darwin` and `linux`,
`getSdkDestinationDir` returns the error `unsupported OS: <os>` with an empty path,
and the run aborts before any network or file-system action of the program: in
every such run there is no presence check, no call of `extractSdk`, no download
and no command, no effect of a stage after the configuration stage, the temporary
files are untouched and the exit code is not zero; when Android SDK setup and
config validation have succeeded, `main` terminates with exit code `5`. -/
theorem C5_unsupported_os_aborts (env : Env)
    (hd : env.GOOS ≠ "darwin") (hl : env.GOOS ≠ "linux") :
    getSdkDestinationDir env = ("", some ("unsupported OS: " ++ env.GOOS)) ∧
      presenceChecks (main env).trace = [] ∧
      extractSdkCalls (main env).trace = 0 ∧
      downloadURLs (main env).trace = [] ∧
      invocations (main env).trace = [] ∧
      maxStage (main env).trace ≤ 2 ∧
      (main env).files = env.files ∧
      (main env).exitCode ≠ 0 ∧
      (env.ensureAndroidSdkSetup = none → env.validate env.configs = none →
        (main env).exitCode = 5) := by
  have h3 := getSdkDestinationDir_unsupported env hd hl
  refine ⟨h3, ?_⟩
  cases h1 : env.ensureAndroidSdkSetup with
  | some err =>
    rw [main_setup_fail env err h1]
    simp [presenceChecks, extractSdkCalls, downloadURLs, invocations, maxStage, Event.stage]
  | none =>
    cases h2 : env.validate env.configs with
    | some err =>
      rw [main_validate_fail env err h1 h2]
      simp [presenceChecks, extractSdkCalls, downloadURLs, invocations, maxStage,
        Event.stage]
    | none =>
      rw [main_destination_fail env _ _ h1 h2 h3]
      simp [presenceChecks, extractSdkCalls, downloadURLs, invocations, maxStage,
        Event.stage]

/-- C5 at a concrete run: on a Windows host the run ends with exit code `5`
without any presence check. -/
theorem C5_witness :
    (main windowsEnv).exitCode = 5 ∧ presenceChecks (main windowsEnv).trace = [] :=
  have h := C5_unsupported_os_aborts windowsEnv (by decide) (by decide)
  ⟨h.2.2.2.2.2.2.2.2 rfl rfl, h.2.1⟩

/-- C5 as stated fails: on a Windows host, an OS other than `darwin` and `linux`,
a failing Android SDK setup ends the run with exit code `6`, not `5`. -/
theorem C5_counterexample :
    windowsSetupFailsEnv.GOOS ≠ "darwin" ∧ windowsSetupFailsEnv.GOOS ≠ "linux" ∧
      (main windowsSetupFailsEnv).exitCode = 6 ∧
      (main windowsSetupFailsEnv).exitCode ≠ 5 := by
  decide

theorem runCommands_exit (env : Env) (cfg : Configs) (d : String) :
    ∀ (cmds : List String) (k i : Nat) (err : String), i < cmds.length →
      env.RunCommandInDir (k + i) = some err → (runCommands env cfg d k cmds).1 = 3 := by
  intro cmds
  induction cmds with
  | nil => intro k i err hi; simp at hi
  | cons c cs ih =>
    intro k i err hi hfail
    unfold runCommands
    cases h0 : env.RunCommandInDir k with
    | some e => rfl
    | none =>
      cases i with
      | zero => rw [Nat.add_zero, h0] at hfail; cases hfail
      | succ i =>
        exact ih (k + 1) i err (by simpa using hi)
          (by rwa [show k + (i + 1) = k + 1 + i by omega] at hfail)

/-- C9: `main` ends with a distinct non-zero exit code for each failure category,
decided by the first failing stage: Android SDK setup `6`, config validation `4`,
destination-dir resolution `5`, presence check `1`, extraction `2`, command
execution `3`; no effect of a later stage occurs. -/
theorem C9_exit_code_of_first_failing_stage (env : Env) :
    (∀ err, env.ensureAndroidSdkSetup = some err →
        (main env).exitCode = 6 ∧ maxStage (main env).trace ≤ 1) ∧
      (∀ err, env.ensureAndroidSdkSetup = none → env.validate env.configs = some err →
        (main env).exitCode = 4 ∧ maxStage (main env).trace ≤ 2) ∧
      (∀ p err, env.ensureAndroidSdkSetup = none → env.validate env.configs = none →
        getSdkDestinationDir env = (p, some err) →
        (main env).exitCode = 5 ∧ maxStage (main env).trace ≤ 3) ∧
      (∀ dir err, env.ensureAndroidSdkSetup = none → env.validate env.configs = none →
        getSdkDestinationDir env = (dir, none) → env.IsDirExists dir = .error err →
        (main env).exitCode = 1 ∧ maxStage (main env).trace ≤ 4) ∧
      (∀ dir err, ReachesInstall env dir false →
        (extractSdk env env.configs.Version dir env.files).1 = .value (some err) →
        (main env).exitCode = 2 ∧ maxStage (main env).trace ≤ 5) ∧
      (∀ dir i err, ReachesCommands env dir → i < env.configs.Commands.length →
        env.RunCommandInDir i = some err → (main env).exitCode = 3) ∧
      [6, 4, 5, 1, 2, 3].Nodup ∧ 0 ∉ [6, 4, 5, 1, 2, 3] := by
  refine ⟨?_, ?_, ?_, ?_, ?_, ?_, by decide, by decide⟩
  · intro err h1
    rw [main_setup_fail env err h1]
    simp [maxStage, Event.stage]
  · intro err h1 h2
    rw [main_validate_fail env err h1 h2]
    simp [maxStage, Event.stage]
  · intro p err h1 h2 h3
    rw [main_destination_fail env p err h1 h2 h3]
    simp [maxStage, Event.stage]
  · intro dir err h1 h2 h3 h4
    rw [main_presence_fail env dir err h1 h2 h3 h4]
    simp [maxStage, Event.stage]
  · intro dir err h hx
    obtain ⟨-, -, -, -, h5⟩ := extractSdk_obs env env.configs.Version dir env.files
    rcases hr : extractSdk env env.configs.Version dir env.files with ⟨r, files, t⟩
    rw [hr] at hx h5
    simp only [] at hx h5
    subst hx
    have hi : installStep env env.configs dir false =
        (some 2, files, Event.extractSdk env.configs.Version dir :: t ++
          [.log .error "Could not extract Flutter SDK, error: %s" [err]]) := by
      unfold installStep
      simp [hr]
    rw [main_install_fail env dir false 2 files _ h hi]
    simp [maxStage, Event.stage]
    omega
  · intro dir i err h hi hfail
    obtain ⟨files, pre, -, -, hmain⟩ := main_reaches env dir h
    rw [hmain]
    exact runCommands_exit env env.configs dir env.configs.Commands 0 i err hi
      (by simpa using hfail)

/-- C9 at concrete runs: an extraction failure ends the run with code `2`, a
failing command with code `3`. -/
theorem C9_witness :
    (main notFoundEnv).exitCode = 2 ∧ (main secondFailsEnv).exitCode = 3 :=
  ⟨((C9_exit_code_of_first_failing_stage notFoundEnv).2.2.2.2.1 "/opt/flutter"
      "xz: file format not recognized" ⟨rfl, rfl, rfl, rfl⟩ (by decide)).1,
    (C9_exit_code_of_first_failing_stage secondFailsEnv).2.2.2.2.2.1 "/opt/flutter" 1
      "exit status 1" ⟨rfl, rfl, rfl, true, rfl, rfl⟩ (by decide) rfl⟩

/-- C10: every invocation `main` issues is `bash` with arguments
`-c`, `<Join(d, "bin/flutter")> <command>`, run in the configured working directory
with the command string unchanged, and the invocations follow the order of
`configs.Commands`: they are always an initial segment of the configured commands
and all of them when the loop is reached and no command fails. -/
theorem C10_invocation_shape (env : Env) :
    (∀ wd d c, invocationFor wd d c =
        (wd, "bash", ["-c", filepath.Join [d, "bin/flutter"] ++ " " ++ c])) ∧
      (∃ n, n ≤ env.configs.Commands.length ∧
        invocations (main env).trace =
          (env.configs.Commands.take n).map
            (invocationFor env.configs.WorkingDir (getSdkDestinationDir env).1)) ∧
      (∀ dir, ReachesCommands env dir →
        (∀ j, j < env.configs.Commands.length → env.RunCommandInDir j = none) →
        invocations (main env).trace =
          env.configs.Commands.map (invocationFor env.configs.WorkingDir dir)) ∧
      (env.GOOS = "linux" →
        filepath.Join [(getSdkDestinationDir env).1, "bin/flutter"] =
          "/opt/flutter/bin/flutter") := by
  refine ⟨fun _ _ _ => rfl, ?_, ?_, ?_⟩
  · obtain ⟨pre, post, ht, hpre, -, -, hpost⟩ := main_shape env
    rw [ht, invocations_append, hpre, List.nil_append]
    rcases hpost with h | h
    · exact ⟨0, Nat.zero_le _, by rw [h]; simp [invocations]⟩
    · rw [h]
      exact runCommands_initial_segment env env.configs _ _ 0
  · intro dir h hall
    obtain ⟨files, pre, hp1, -, hmain⟩ := main_reaches env dir h
    rw [hmain]
    simp only [invocations_append, hp1, List.nil_append]
    exact (runCommands_ok env env.configs dir env.configs.Commands 0
      (fun j hj => by simpa using hall j hj)).2.1
  · intro hl
    have : getSdkDestinationDir env = ("/opt/flutter", none) := by
      unfold getSdkDestinationDir
      simp [hl]
    rw [this]
    decide

/-- C10 at a concrete run: the three invocations of the Linux host. -/
theorem C10_witness :
    invocations (main linuxEnv).trace =
      [("/src/app", "bash", ["-c", "/opt/flutter/bin/flutter build apk"]),
       ("/src/app", "bash", ["-c", "/opt/flutter/bin/flutter test"]),
       ("/src/app", "bash", ["-c", "/opt/flutter/bin/flutter analyze"])] :=
  ((C10_invocation_shape linuxEnv).2.2.1 "/opt/flutter"
    ⟨rfl, rfl, rfl, false, rfl, by decide⟩ (by decide)).trans (by decide)

theorem flutterSdkSourceURL_darwin (env : Env) (v ch : String) (h : env.GOOS = "darwin") :
    flutterSdkSourceURL env v ch =
      "https://storage.googleapis.com/flutter_infra/releases/" ++ ch ++ "/" ++ "macos" ++
        "/flutter_" ++ "macos" ++ "_v" ++ v ++ "." ++ "zip" := by
  apply String.ext
  simp [flutterSdkSourceURL, getFlutterPlatform, getArchiveExtension, h, fmt.Sprintf,
    fmt.sprintfLoop]

theorem flutterSdkSourceURL_linux (env : Env) (v ch : String) (h : env.GOOS = "linux") :
    flutterSdkSourceURL env v ch =
      "https://storage.googleapis.com/flutter_infra/releases/" ++ ch ++ "/" ++ "linux" ++
        "/flutter_" ++ "linux" ++ "_v" ++ v ++ "." ++ "tar.xz" := by
  apply String.ext
  simp [flutterSdkSourceURL, getFlutterPlatform, getArchiveExtension, h, fmt.Sprintf,
    fmt.sprintfLoop]

/-- Every URL requested during `extractSdk` is the URL built from the channel. -/
theorem extractSdk_downloadURLs (env : Env) (v d ch : String) (files : List String)
    (hch : channel v = some ch) :
    ∀ u ∈ downloadURLs (extractSdk env v d files).2.2, u = flutterSdkSourceURL env v ch := by
  by_cases hd : env.GOOS = "darwin"
  · rw [extractSdk_darwin env v d ch files hd hch]
    simp [downloadURLs]
  · by_cases hl : env.GOOS = "linux"
    · rcases htf : ioutilTempFile env files env.TempDir "flutter" with ⟨r, files1⟩
      cases r with
      | error e =>
        rw [extractSdk_linux_tempFile_fail env v d ch e files files1 hl hch htf]
        simp [downloadURLs]
      | ok file =>
        rw [extractSdk_linux env v d ch file files files1 hl hch htf]
        obtain ⟨h1, -, -⟩ := downloadFile_urls env (flutterSdkSourceURL env v ch) file
        cases (downloadFile env (flutterSdkSourceURL env v ch) file).1 <;>
          cases (osRemove files1 file).1 <;> simp [downloadURLs, h1]
    · rw [extractSdk_unsupported env v d ch files hd hl hch]
      simp [downloadURLs]

/-- C3: for every version string and each supported host OS the download URL built
by `extractSdk` is the release URL of the derived channel, platform (`macos` on
darwin, `linux` on linux) and version, ending in `.` and the archive extension of
the platform (`zip` on darwin, `tar.xz` on linux); it is the only URL `extractSdk`
requests. -/
theorem C3_download_url (env : Env) (v : String) :
    ∃ ch, channel v = some ch ∧
      (env.GOOS = "darwin" →
        flutterSdkSourceURL env v ch =
            "https://storage.googleapis.com/flutter_infra/releases/" ++ ch ++ "/" ++ "macos" ++
              "/flutter_" ++ "macos" ++ "_v" ++ v ++ "." ++ "zip" ∧
          getArchiveExtension env = "zip" ∧
          ∃ pre, flutterSdkSourceURL env v ch = pre ++ "." ++ "zip") ∧
      (env.GOOS = "linux" →
        flutterSdkSourceURL env v ch =
            "https://storage.googleapis.com/flutter_infra/releases/" ++ ch ++ "/" ++ "linux" ++
              "/flutter_" ++ "linux" ++ "_v" ++ v ++ "." ++ "tar.xz" ∧
          getArchiveExtension env = "tar.xz" ∧
          ∃ pre, flutterSdkSourceURL env v ch = pre ++ "." ++ "tar.xz") ∧
      (env.GOOS = "linux" → v = "1.7.8-beta" →
        flutterSdkSourceURL env v ch =
          "https://storage.googleapis.com/flutter_infra/releases/beta/linux/flutter_linux_v1.7.8-beta.tar.xz") ∧
      (∀ d files, ∀ u ∈ downloadURLs (extractSdk env v d files).2.2,
        u = flutterSdkSourceURL env v ch) := by
  obtain ⟨ch, hch, -⟩ := channel_spec v
  refine ⟨ch, hch, ?_, ?_, ?_, fun d files => extractSdk_downloadURLs env v d ch files hch⟩
  · intro h
    exact ⟨flutterSdkSourceURL_darwin env v ch h, by simp [getArchiveExtension, h],
      ⟨_, flutterSdkSourceURL_darwin env v ch h⟩⟩
  · intro h
    exact ⟨flutterSdkSourceURL_linux env v ch h, by simp [getArchiveExtension, h],
      ⟨_, flutterSdkSourceURL_linux env v ch h⟩⟩
  · intro h hv
    subst hv
    have hb : channel "1.7.8-beta" = some "beta" := by decide
    rw [hb] at hch
    cases hch
    rw [flutterSdkSourceURL_linux env _ _ h]
    decide

/-- C3 at a concrete run: the URL requested on the Linux host for `1.7.8-beta`. -/
theorem C3_witness :
    downloadURLs (extractSdk linuxEnv "1.7.8-beta" "/opt/flutter" []).2.2 =
      ["https://storage.googleapis.com/flutter_infra/releases/beta/linux/flutter_linux_v1.7.8-beta.tar.xz"] ∧
      ∃ ch, channel "1.7.8-beta" = some ch ∧
        flutterSdkSourceURL linuxEnv "1.7.8-beta" ch =
          "https://storage.googleapis.com/flutter_infra/releases/beta/linux/flutter_linux_v1.7.8-beta.tar.xz" := by
  obtain ⟨ch, hch, -, -, h, -⟩ := C3_download_url linuxEnv "1.7.8-beta"
  exact ⟨by decide, ch, hch, h rfl rfl⟩

/-- C4: for every version string the channel derived in `extractSdk` is the last
dash-separated token: the part after the last `-` when there is one, the whole
string otherwise; it contains no `-`; the index `len(versionComponents)-1` is
always in range, so the derivation never panics. -/
theorem C4_channel_is_last_dash_token (v : String) :
    (0 ≤ ((strings.Split v "-").length : Int) - 1 ∧
        ((strings.Split v "-").length : Int) - 1 < ((strings.Split v "-").length : Int)) ∧
      (∃ ch : String, channel v = some ch ∧ '-' ∉ ch.data ∧
        ('-' ∈ v.data → ∃ pre : String, v = pre ++ "-" ++ ch) ∧
        ('-' ∉ v.data → ch = v)) ∧
      (∀ env d files, ∃ r, (extractSdk env v d files).1 = .value r) ∧
      channel "1.7.8-stable" = some "stable" ∧ channel "1.7.8-beta" = some "beta" ∧
      channel "1.7.8" = some "1.7.8" ∧ channel "" = some "" := by
  refine ⟨?_, ?_, fun env d files => extractSdk_returns env v d files,
    by decide, by decide, by decide, by decide⟩
  · obtain ⟨init, last, hg, -, -⟩ := strings.genSplit_single '-' v.data
    have hd : ("-" : String).data = ['-'] := rfl
    have hlen : (strings.Split v "-").length = init.length + 1 := by
      simp [strings.Split, hd, hg]
    rw [hlen]
    constructor
    · push_cast; omega
    · omega
  · obtain ⟨ch, hch, hno, hcase⟩ := channel_spec v
    refine ⟨ch, hch, hno, ?_, ?_⟩
    · intro hin
      rcases hcase with ⟨hnot, -⟩ | hpre
      · exact absurd hin hnot
      · exact hpre
    · intro hnot
      rcases hcase with ⟨-, heq⟩ | ⟨pre, hpre⟩
      · exact heq
      · exact absurd (by rw [hpre]; simp) hnot

theorem ioutilTempFile_ok (env : Env) (files files1 : List String) (dir pattern file : String)
    (h : ioutilTempFile env files dir pattern = (.ok file, files1)) :
    file ∉ files ∧ files1 = file :: files := by
  unfold ioutilTempFile at h
  split at h
  · simp at h
  · split at h
    · simp at h
    · rename_i hnot
      simp only [Prod.mk.injEq, Except.ok.injEq] at h
      obtain ⟨h1, h2⟩ := h
      subst h1
      exact ⟨hnot, h2.symm⟩

theorem osRemove_created (files : List String) (file : String) (h : file ∉ files) :
    osRemove (file :: files) file = (none, files) := by
  have hall : ∀ a ∈ files, ¬ a = file := fun a ha e => h (e ▸ ha)
  have hf : List.filter (fun x => decide (x ≠ file)) (file :: files) = files := by
    rw [List.filter_cons_of_neg (by simp)]
    exact List.filter_eq_self.mpr (fun a ha => by simpa using hall a ha)
  unfold osRemove
  rw [if_pos (List.mem_cons_self _ _), hf]

/-- C6, as the code has it: on the temporary-file (linux) install path a transport
failure and a failure while writing the body make `downloadFile` return a non-nil
error that carries the cause, and `extractSdk` returns that very error without
attempting extraction and after a single request; the status code of a response
is not inspected: a response whose body is written without error makes
`downloadFile` return `nil` whatever its status, and whenever `downloadFile`
returns `nil` `extractSdk` goes on to extraction, once, after a single request,
and returns what the extraction returns. -/
theorem C6_download_failures_surface (env : Env) (url file : String) :
    (∀ cause, env.Get url = .error cause →
        (downloadFile env url file).1 =
          some ("failed to download from " ++ url ++ ", error: " ++ cause)) ∧
      (∀ status cause, env.Get url = .ok status → env.Copy = some cause →
        (downloadFile env url file).1 =
          some ("failed to save file " ++ file ++ ", error: " ++ cause)) ∧
      (∀ status, env.Get url = .ok status → env.Copy = none →
        (downloadFile env url file).1 = none) ∧
      (∀ v d ch files files1 err, env.GOOS = "linux" → channel v = some ch →
        url = flutterSdkSourceURL env v ch →
        ioutilTempFile env files env.TempDir "flutter" = (.ok file, files1) →
        (downloadFile env url file).1 = some err →
        (extractSdk env v d files).1 = .value (some err) ∧
          extractionTargets (extractSdk env v d files).2.2 = [] ∧
          downloadURLs (extractSdk env v d files).2.2 = [url]) ∧
      (∀ v d ch files files1, env.GOOS = "linux" → channel v = some ch →
        url = flutterSdkSourceURL env v ch →
        ioutilTempFile env files env.TempDir "flutter" = (.ok file, files1) →
        (downloadFile env url file).1 = none →
        (extractSdk env v d files).1 =
            .value (env.TarXZOpen file (filepath.Join [d, ".."])) ∧
          extractionTargets (extractSdk env v d files).2.2 = [filepath.Join [d, ".."]] ∧
          downloadURLs (extractSdk env v d files).2.2 = [url]) := by
  refine ⟨?_, ?_, ?_, ?_, ?_⟩
  · intro cause h
    have hs : fmt.Sprintf "failed to download from %s, error: %s" [url, cause] =
        "failed to download from " ++ url ++ ", error: " ++ cause := by
      apply String.ext
      simp [fmt.Sprintf, fmt.sprintfLoop]
    unfold downloadFile
    simp [h, hs]
  · intro status cause h hc
    have hs : fmt.Sprintf "failed to save file %s, error: %s" [file, cause] =
        "failed to save file " ++ file ++ ", error: " ++ cause := by
      apply String.ext
      simp [fmt.Sprintf, fmt.sprintfLoop]
    unfold downloadFile
    simp [h, hc, hs]
  · intro status h hc
    unfold downloadFile
    simp [h, hc]
  · intro v d ch files files1 err hl hch hurl htf hdl
    subst hurl
    obtain ⟨h1, h2, -⟩ := downloadFile_urls env (flutterSdkSourceURL env v ch) file
    rw [extractSdk_linux env v d ch file files files1 hl hch htf]
    cases hrm : (osRemove files1 file).1 <;>
      simp [hdl, h1, h2, extractionTargets, downloadURLs]
  · intro v d ch files files1 hl hch hurl htf hdl
    subst hurl
    obtain ⟨h1, h2, -⟩ := downloadFile_urls env (flutterSdkSourceURL env v ch) file
    rw [extractSdk_linux env v d ch file files files1 hl hch htf]
    cases hrm : (osRemove files1 file).1 <;>
      simp [hdl, h1, h2, extractionTargets, downloadURLs, flutterSdkParentDir]

/-- C6 at concrete runs: without network the run reports the transport failure and
never opens an archive; after a download that returns `nil` the archive is opened
once, with target `/opt`. -/
theorem C6_witness :
    (extractSdk offlineEnv "1.7.8-beta" "/opt/flutter" []).1 =
        .value (some ("failed to download from " ++
          flutterSdkSourceURL offlineEnv "1.7.8-beta" "beta" ++
          ", error: " ++ "dial tcp: no such host")) ∧
      extractionTargets (extractSdk offlineEnv "1.7.8-beta" "/opt/flutter" []).2.2 = [] ∧
      extractionTargets (extractSdk linuxEnv "1.7.8-beta" "/opt/flutter" []).2.2 =
        ["/opt"] :=
  have h := C6_download_failures_surface offlineEnv
    (flutterSdkSourceURL offlineEnv "1.7.8-beta" "beta") "/tmp/flutter123456"
  have h4 := h.2.2.2.1 "1.7.8-beta" "/opt/flutter" "beta" [] ["/tmp/flutter123456"] _
    rfl (by decide) rfl rfl (h.1 "dial tcp: no such host" rfl)
  have g := C6_download_failures_surface linuxEnv
    (flutterSdkSourceURL linuxEnv "1.7.8-beta" "beta") "/tmp/flutter123456"
  have g5 := g.2.2.2.2 "1.7.8-beta" "/opt/flutter" "beta" [] ["/tmp/flutter123456"]
    rfl (by decide) rfl rfl (g.2.2.1 200 rfl rfl)
  ⟨h4.1, h4.2.1, g5.2.1.trans (by decide)⟩

/-- C6 as stated fails: a `404` response is a non-2xx response, yet `downloadFile`
returns `nil` and `extractSdk` goes on to open the archive. -/
theorem C6_counterexample :
    notFoundEnv.Get (flutterSdkSourceURL notFoundEnv "1.7.8-beta" "beta") = .ok 404 ∧
      ¬ (200 ≤ 404 ∧ 404 < 300) ∧
      (downloadFile notFoundEnv (flutterSdkSourceURL notFoundEnv "1.7.8-beta" "beta")
        "/tmp/flutter123456").1 = none ∧
      extractionTargets (extractSdk notFoundEnv "1.7.8-beta" "/opt/flutter" []).2.2 =
        ["/opt"] :=
  ⟨rfl, by decide, rfl, by decide⟩

/-- C7: on linux, whatever the outcome of the download and of the extraction,
`extractSdk` attempts the removal of the temporary file it created exactly once
before returning, and the file is absent after the call while all other files are
as before; when creating the temporary file fails, no file is left behind and no
download is attempted. -/
theorem C7_temp_file_removed (env : Env) (v d : String) (files : List String)
    (hl : env.GOOS = "linux") :
    (∀ file files1, ioutilTempFile env files env.TempDir "flutter" = (.ok file, files1) →
        file ∈ files1 ∧
          removals (extractSdk env v d files).2.2 = [file] ∧
          file ∉ (extractSdk env v d files).2.1 ∧
          (extractSdk env v d files).2.1 = files) ∧
      (∀ err files1, ioutilTempFile env files env.TempDir "flutter" = (.error err, files1) →
        (extractSdk env v d files).1 = .value (some err) ∧
          (extractSdk env v d files).2.1 = files ∧
          downloadURLs (extractSdk env v d files).2.2 = [] ∧
          removals (extractSdk env v d files).2.2 = []) := by
  obtain ⟨ch, hch, -⟩ := channel_spec v
  constructor
  · intro file files1 htf
    obtain ⟨hnot, hf1⟩ := ioutilTempFile_ok env files files1 _ _ file htf
    obtain ⟨-, -, h3⟩ := downloadFile_urls env (flutterSdkSourceURL env v ch) file
    rw [extractSdk_linux env v d ch file files files1 hl hch htf]
    subst hf1
    rw [osRemove_created files file hnot]
    refine ⟨by simp, ?_, hnot, rfl⟩
    cases (downloadFile env (flutterSdkSourceURL env v ch) file).1 <;>
      simp [removals, h3]
  · intro err files1 htf
    rw [extractSdk_linux_tempFile_fail env v d ch err files files1 hl hch htf]
    simp [downloadURLs, removals]

/-- C7 at concrete runs: the temporary file is gone after a successful install and
after a failed download alike. -/
theorem C7_witness :
    removals (extractSdk linuxEnv "1.7.8-beta" "/opt/flutter" []).2.2 =
        ["/tmp/flutter123456"] ∧
      "/tmp/flutter123456" ∉ (extractSdk linuxEnv "1.7.8-beta" "/opt/flutter" []).2.1 ∧
      "/tmp/flutter123456" ∉ (extractSdk offlineEnv "1.7.8-beta" "/opt/flutter" []).2.1 :=
  have h1 := (C7_temp_file_removed linuxEnv "1.7.8-beta" "/opt/flutter" [] rfl).1
    "/tmp/flutter123456" ["/tmp/flutter123456"] rfl
  have h2 := (C7_temp_file_removed offlineEnv "1.7.8-beta" "/opt/flutter" [] rfl).1
    "/tmp/flutter123456" ["/tmp/flutter123456"] rfl
  ⟨h1.2.1, h1.2.2.1, h2.2.2.1⟩

/-- Every directory handed to an extraction routine by `extractSdk` is
`filepath.Join(d, "..")`. -/
theorem extractSdk_extractionTargets (env : Env) (v d : String) (files : List String) :
    ∀ t ∈ extractionTargets (extractSdk env v d files).2.2, t = filepath.Join [d, ".."] := by
  obtain ⟨ch, hch, -⟩ := channel_spec v
  by_cases hd : env.GOOS = "darwin"
  · rw [extractSdk_darwin env v d ch files hd hch]
    simp [extractionTargets, flutterSdkParentDir]
  · by_cases hl : env.GOOS = "linux"
    · rcases htf : ioutilTempFile env files env.TempDir "flutter" with ⟨r, files1⟩
      cases r with
      | error e =>
        rw [extractSdk_linux_tempFile_fail env v d ch e files files1 hl hch htf]
        simp [extractionTargets]
      | ok file =>
        rw [extractSdk_linux env v d ch file files files1 hl hch htf]
        obtain ⟨-, h2, -⟩ := downloadFile_urls env (flutterSdkSourceURL env v ch) file
        cases (downloadFile env (flutterSdkSourceURL env v ch) file).1 <;>
          cases (osRemove files1 file).1 <;>
          simp [extractionTargets, h2, flutterSdkParentDir]
    · rw [extractSdk_unsupported env v d ch files hd hl hch]
      simp [extractionTargets]

theorem absPath_snoc_ne (cs : List String) (c : String) (hc : filepath.IsElem c) :
    filepath.absPath cs ≠ filepath.absPath (cs ++ [c]) := by
  have hlen : 0 < c.data.length := List.length_pos.mpr hc.chars.1
  intro h
  have hdata := congrArg (fun s => s.data.length) h
  cases cs with
  | nil =>
    simp only [filepath.absPath, List.nil_append, if_true, reduceCtorEq, if_false,
      filepath.absTail, String.data_append, List.length_append] at hdata
    have h1 : ("/" : String).data.length = 1 := rfl
    have h2 : ("" : String).data.length = 0 := rfl
    omega
  | cons x xs =>
    have : filepath.absPath (x :: xs ++ [c]) =
        filepath.absTail (x :: xs) ++ filepath.absTail [c] := by
      simp only [filepath.absPath, List.cons_append, reduceCtorEq, if_false]
      rw [← List.cons_append, filepath.absTail_append]
    rw [this] at hdata
    simp only [filepath.absPath, reduceCtorEq, if_false, filepath.absTail,
      String.data_append, List.length_append] at hdata
    have h1 : ("/" : String).data.length = 1 := rfl
    omega

end Flutter
